import Mathlib

/-! # Access control, pagination and response envelope of the academic analytics API

The file has six parts, each in its own namespace: the access-control middleware
(`Authorize`), the pagination helpers (`Pagination`), the response envelope (`Response`), the
authentication middleware (`Auth`) and the update handlers of notes and reviews (`Notes`,
`Reviews`, over the table of `Prisma`).  The definitions of all parts come first, the theorems
follow.

Access-control middleware.
A shallow embedding of `src/middleware/authorize.js` (the role gate `authorize` and the
owner-or-role gate `authorizeOwnerOrRoles`) together with the small part of JavaScript the two
gates rely on: truthiness, strict equality, the short-circuit operators, property reads and the
array methods `includes` and `some`.

An Express middleware is a procedure `(req, res, next)`; its observable behaviour is what it
writes to `res`, whether it calls `next`, and whether an exception leaves it.  All three are
threaded through explicitly as a `Ctx`.
-/

set_option autoImplicit false

namespace Authorize

/-! ## JavaScript values -/

/-- The JavaScript values a request field read by the gates can hold.  Objects and arrays are
kept by reference, which is all that truthiness and strict equality look at. -/
inductive JsVal where
  | undefined
  | null
  | bool (b : Bool)
  | num (n : Int)
  | str (s : String)
  | obj (ref : Nat)
  deriving DecidableEq, Repr

namespace JsVal

/-- ToBoolean: `undefined`, `null`, `false`, `0` and the empty string are falsy. -/
def truthy : JsVal → Bool
  | undefined => false
  | null => false
  | bool b => b
  | num n => n != 0
  | str s => s != ""
  | obj _ => true

/-- The strict equality operator `===`. -/
def strictEq : JsVal → JsVal → Bool
  | undefined, undefined => true
  | null, null => true
  | bool a, bool b => a == b
  | num a, num b => a == b
  | str a, str b => a == b
  | obj a, obj b => a == b
  | _, _ => false

/-- The operator `a || b`: the left operand when it is truthy, else the right one. -/
def or (a b : JsVal) : JsVal := if a.truthy then a else b

/-- The operator `a && b`: the left operand when it is falsy, else the right one. -/
def and (a b : JsVal) : JsVal := if a.truthy then b else a

end JsVal

/-- A plain object: its own properties, in insertion order. -/
structure JsObj where
  props : List (String × JsVal)
  deriving DecidableEq, Repr

/-- Property read `o.key`: `undefined` when the object has no such property. -/
def JsObj.get (o : JsObj) (key : String) : JsVal :=
  match o.props.lookup key with
  | some v => v
  | none => JsVal.undefined

/-- The method `Array.prototype.includes`, on an array of strings. -/
def JsArray.includes (xs : List String) (x : String) : Bool := xs.contains x

/-- The method `Array.prototype.some`, on an array of strings. -/
def JsArray.some (xs : List String) (p : String → Bool) : Bool := xs.any p

/-! ## Request, response and the continuation -/

/-- The identity the authentication step attaches as `req.user` (the fields the gates read). -/
structure User where
  roles : List String
  lecturerId : JsVal
  deriving DecidableEq, Repr

/-- The slot `req.user`: never set, set to `null` (the two falsy cases, on which `!req.user`
holds), or holding an identity. -/
inductive ReqUser where
  | undefined
  | null
  | obj (u : User)
  deriving DecidableEq, Repr

/-- The request as the gates see it: `req.user`, `req.params` and `req.body`.  The body is
`none` when `req.body` is `undefined`, as it is for a request without a body when no body
parser has set it. -/
structure Req where
  user : ReqUser
  params : JsObj
  body : Option JsObj
  deriving DecidableEq, Repr

/-- The response object: the status code and the JSON body written so far, and how many times
`json` was called. -/
structure Res where
  statusCode : Option Nat
  body : Option JsObj
  jsonCalls : Nat
  deriving DecidableEq, Repr

/-- The method `res.status(code)`. -/
def Res.status (res : Res) (code : Nat) : Res := { res with statusCode := some code }

/-- The method `res.json(data)`. -/
def Res.json (res : Res) (data : JsObj) : Res :=
  { res with body := some data, jsonCalls := res.jsonCalls + 1 }

/-- What a middleware can change: the response, the number of calls of `next`, and the
exception it let escape, if any (its name; `none` when it returned normally). -/
structure Ctx where
  res : Res
  nextCalls : Nat
  thrown : Option String
  deriving DecidableEq, Repr

/-- The call `next()`. -/
def Ctx.next (c : Ctx) : Ctx := { c with nextCalls := c.nextCalls + 1 }

/-- An exception of the given name leaves the middleware: nothing more is written or called. -/
def Ctx.throw (c : Ctx) (name : String) : Ctx := { c with thrown := some name }

/-- The statement `res.status(code).json(data)`. -/
def Ctx.send (c : Ctx) (code : Nat) (data : JsObj) : Ctx :=
  { c with res := (c.res.status code).json data }

/-- The object literal with the keys success (always false here) and message. -/
def failure (message : String) : JsObj :=
  ⟨[("success", JsVal.bool false), ("message", JsVal.str message)]⟩

/-- A response nothing was written to, and a continuation not called yet. -/
def Ctx.fresh : Ctx := ⟨⟨none, none, 0⟩, 0, none⟩

/-! ## The two gates -/

/-- The role gate, `authorize(...allowedRoles)(req, res, next)`. -/
def authorize (allowedRoles : List String) (req : Req) (c : Ctx) : Ctx :=
  match req.user with
  | ReqUser.obj user =>
    let userRoles := user.roles
    if JsArray.includes userRoles "ADMIN" then
      c.next
    else
      let hasRole := JsArray.some allowedRoles (fun role => JsArray.includes userRoles role)
      if !hasRole then
        c.send 403 (failure "Access denied. Insufficient permissions.")
      else
        c.next
  | _ => c.send 401 (failure "Authentication required")

/-- The expression `req.params.lecturerId || req.body.lecturerId`.  The right operand is
evaluated only when the left one is falsy; reading `lecturerId` of an undefined `req.body` then
throws a TypeError, for which the result is `none`. -/
def targetLecturerId (req : Req) : Option JsVal :=
  if (req.params.get "lecturerId").truthy then some (req.params.get "lecturerId")
  else
    match req.body with
    | some body => some (body.get "lecturerId")
    | none => none

/-- The condition `req.user.lecturerId && req.user.lecturerId === targetLecturerId`. -/
def isOwner (user : User) (target : JsVal) : Bool :=
  (user.lecturerId.and (JsVal.bool (user.lecturerId.strictEq target))).truthy

/-- The owner-or-role gate, `authorizeOwnerOrRoles(...allowedRoles)(req, res, next)`.  The
target is computed right after the test of `req.user`, before the roles are looked at. -/
def authorizeOwnerOrRoles (allowedRoles : List String) (req : Req) (c : Ctx) : Ctx :=
  match req.user with
  | ReqUser.obj user =>
    let userRoles := user.roles
    match targetLecturerId req with
    | none => c.throw "TypeError"
    | some target =>
      if JsArray.includes userRoles "ADMIN" then
        c.next
      else if isOwner user target then
        c.next
      else
        let hasRole := JsArray.some allowedRoles (fun role => JsArray.includes userRoles role)
        if hasRole then
          c.next
        else
          c.send 403 (failure "Access denied. You can only access your own data.")
  | _ => c.send 401 (failure "Authentication required")

/-- The target lecturer id as the specification words it: `params.lecturerId`, or
`body.lecturerId` when the path has none.  It is compared below with `targetLecturerId`, which
is what the gate computes. -/
def statedTarget (req : Req) : Option JsVal :=
  if req.params.get "lecturerId" = JsVal.undefined then
    req.body.map (fun body => body.get "lecturerId")
  else some (req.params.get "lecturerId")

/-- An id as the application stores and routes it: a non-empty string. -/
def JsVal.isId : JsVal → Bool
  | JsVal.str s => s != ""
  | _ => false

/-- A lecturer id as `authenticate` attaches it to `req.user` (`user.lecturer?.id || null`):
null, or a non-empty string. -/
def attachedLecturerId (v : JsVal) : Bool := v == JsVal.null || v.isId

/-- A path parameter as the router sets it: absent, or the non-empty segment of the path it
matched. -/
def routedParam (v : JsVal) : Bool := v == JsVal.undefined || v.isId

/-! ## Observing a gate -/

/-- The gate called `next` once and left the response as it was. -/
def CalledNext (before after : Ctx) : Prop :=
  after.nextCalls = before.nextCalls + 1 ∧ after.res = before.res

instance (before after : Ctx) : Decidable (CalledNext before after) := by
  unfold CalledNext
  infer_instance

/-- The gate answered with the given status and the body made of success false and the given
message, and did not call `next`. -/
def Responded (before after : Ctx) (code : Nat) (message : String) : Prop :=
  after.res.statusCode = some code
    ∧ after.res.body = some ⟨[("success", JsVal.bool false), ("message", JsVal.str message)]⟩
    ∧ after.nextCalls = before.nextCalls

instance (before after : Ctx) (code : Nat) (message : String) :
    Decidable (Responded before after code message) := by
  unfold Responded
  infer_instance

/-- The gate wrote one response (a status code and, through one call of `json`, a body) and
did not call `next`. -/
def WroteOnce (before after : Ctx) : Prop :=
  after.nextCalls = before.nextCalls
    ∧ after.res.jsonCalls = before.res.jsonCalls + 1
    ∧ after.res.statusCode.isSome = true
    ∧ after.res.body.isSome = true

instance (before after : Ctx) : Decidable (WroteOnce before after) := by
  unfold WroteOnce
  infer_instance

/-! ## Inputs used in the checks below -/

/-- An object with the single property lecturerId. -/
def withLecturerId (v : JsVal) : JsObj := ⟨[("lecturerId", v)]⟩

/-- The empty object literal. -/
def emptyObj : JsObj := ⟨[]⟩

/-- An administrator with lecturer profile lec-1 asking for the data of lec-999. -/
def adminReq : Req :=
  ⟨ReqUser.obj ⟨["ADMIN"], JsVal.str "lec-1"⟩, withLecturerId (JsVal.str "lec-999"),
    some emptyObj⟩

/-- A request that went through no authentication: `req.user` is null. -/
def anonymousReq : Req := ⟨ReqUser.null, emptyObj, some emptyObj⟩

/-- A lecturer (role DOSEN, no lecturer id attached) on a route without a lecturer id. -/
def dosenReq : Req := ⟨ReqUser.obj ⟨["DOSEN"], JsVal.undefined⟩, emptyObj, some emptyObj⟩

/-- The owner lec-123 asking for lec-123 through the path, with lec-456 in the body. -/
def ownerReq : Req :=
  ⟨ReqUser.obj ⟨["DOSEN"], JsVal.str "lec-123"⟩, withLecturerId (JsVal.str "lec-123"),
    some (withLecturerId (JsVal.str "lec-456"))⟩

/-- The lecturer lec-1 asking for the data of lec-999. -/
def strangerReq : Req :=
  ⟨ReqUser.obj ⟨["DOSEN"], JsVal.str "lec-1"⟩, withLecturerId (JsVal.str "lec-999"),
    some emptyObj⟩

/-- A lecturer without a lecturer profile asking for the data of lec-999. -/
def noProfileReq : Req :=
  ⟨ReqUser.obj ⟨["DOSEN"], JsVal.null⟩, withLecturerId (JsVal.str "lec-999"), some emptyObj⟩

/-- A head of study programme with profile lec-1 asking for the data of lec-999. -/
def kaprodiReq : Req :=
  ⟨ReqUser.obj ⟨["KAPRODI"], JsVal.str "lec-1"⟩, withLecturerId (JsVal.str "lec-999"),
    some emptyObj⟩

/-- The allowed roles of the route GET /lecturers/:id/dashboard. -/
def dashboardRoles : List String := ["KAPRODI", "DEKAN", "LPM", "LPPM"]

/-- A request to GET /lecturers/:id/dashboard: the path parameter is named id. -/
def dashboardReq (user : User) (pathId : String) (body : JsObj) : Req :=
  ⟨ReqUser.obj user, ⟨[("id", JsVal.str pathId)]⟩, some body⟩

/-- A request to GET /lecturers/:id/dashboard that carries no body, where no body parser has
set `req.body`. -/
def bodylessDashboardReq (user : User) (pathId : String) : Req :=
  ⟨ReqUser.obj user, ⟨[("id", JsVal.str pathId)]⟩, none⟩

/-- A request on a route without path parameters that carries no body. -/
def bodylessReq (user : User) : Req := ⟨ReqUser.obj user, emptyObj, none⟩

/-- An administrator with lecturer profile lec-1 asking for the own dashboard, without body. -/
def adminDashboardReq : Req := bodylessDashboardReq ⟨["ADMIN"], JsVal.str "lec-1"⟩ "lec-1"

/-- An administrator without lecturer profile asking for the dashboard of lec-999, without
body. -/
def adminNoProfileReq : Req := bodylessDashboardReq ⟨["ADMIN"], JsVal.null⟩ "lec-999"

/-- A head of study programme with profile lec-1 asking for the dashboard of lec-999, without
body. -/
def kaprodiDashboardReq : Req := bodylessDashboardReq ⟨["KAPRODI"], JsVal.str "lec-1"⟩ "lec-999"

/-- A lecturer with profile lec-1 asking for the own dashboard, without body. -/
def dosenDashboardReq : Req := bodylessDashboardReq ⟨["DOSEN"], JsVal.str "lec-1"⟩ "lec-1"

/-- An administrator without lecturer profile on a route without path parameters, without
body. -/
def adminBodylessReq : Req := bodylessReq ⟨["ADMIN"], JsVal.null⟩

/-- A user holding lower-case and mixed-case spellings of role names next to LPPM and LPM,
asking for the data of lec-999 without owning a lecturer profile. -/
def lowerCaseReq : Req :=
  ⟨ReqUser.obj ⟨["admin", "dosen", "Kaprodi", "LPPM", "LPM"], JsVal.null⟩,
    withLecturerId (JsVal.str "lec-999"), some emptyObj⟩

end Authorize

/-! # Pagination helpers of `src/utils/response.js`

The numbers these helpers handle are page numbers, page sizes and row counts.  They are
JavaScript numbers, that is IEEE 754 binary64 values, and every value that arises here is an
integer, `NaN` or an infinity: the only quotient taken goes straight into `Math.ceil`.  An
integer stands for the double of that value, and the result of each operation is rounded to the
nearest double, ties to the even significand, as the language prescribes; integers of magnitude
up to 2^53 are doubles, larger ones are rounded, and from 2^1024 on the result is an infinity.
The two zeros are one value: nothing here tells them apart (both are falsy, equal to each
other, and written 0 in JSON). -/

namespace Pagination

/-! ## Numbers -/

/-- A JavaScript number, as far as these helpers can produce one: `NaN`, an infinity, or the
double whose value is the given integer. -/
inductive JsNum where
  | nan
  | posInf
  | negInf
  | fin (n : Int)
  deriving DecidableEq, Repr

/-- The power of two 2^k, as a shift. -/
def pow2 (k : Nat) : Nat := 1 <<< k

/-- The binary logarithm of `n`, rounded down, found by at most `fuel` halvings. -/
def log2Fuel : Nat → Nat → Nat
  | 0, _ => 0
  | fuel + 1, n => if n < 2 then 0 else log2Fuel fuel (n / 2) + 1

/-- The binary logarithm of a positive natural number, rounded down: the position of its
leading bit. -/
def log2 (n : Nat) : Nat := log2Fuel n n

/-- The integer nearest to `n / d`, the even one of the two when `n / d` lies half-way. -/
def roundHalfEven (n d : Nat) : Nat :=
  let q := n / d
  let r := n % d
  if 2 * r < d then q else if d < 2 * r then q + 1 else if q % 2 = 0 then q else q + 1

/-- The double nearest to a natural number: the number itself below 2^53, else the nearest
multiple of the unit in the last place of its 53-bit significand; `none` when that reaches
2^1024, where the result is an infinity. -/
def roundNat (n : Nat) : Option Nat :=
  if n < pow2 53 then some n
  else
    let ulp := pow2 (log2 n - 52)
    let m := roundHalfEven n ulp * ulp
    if log2 m < 1024 then some m else none

namespace JsNum

/-- The number an exact integer result is rounded to. -/
def ofInt (n : Int) : JsNum :=
  match roundNat n.natAbs with
  | some m => fin (if n < 0 then -(m : Int) else (m : Int))
  | none => if n < 0 then negInf else posInf

/-- ToBoolean: `NaN` and 0 are falsy. -/
def truthy : JsNum → Bool
  | nan => false
  | fin n => n != 0
  | _ => true

/-- The operator `a || b`: the left operand when it is truthy, else the right one. -/
def or (a b : JsNum) : JsNum := if a.truthy then a else b

/-- Unary minus. -/
def neg : JsNum → JsNum
  | nan => nan
  | posInf => negInf
  | negInf => posInf
  | fin n => fin (-n)

/-- The operator `a + b`. -/
def add : JsNum → JsNum → JsNum
  | nan, _ => nan
  | _, nan => nan
  | posInf, negInf => nan
  | negInf, posInf => nan
  | posInf, _ => posInf
  | _, posInf => posInf
  | negInf, _ => negInf
  | _, negInf => negInf
  | fin a, fin b => ofInt (a + b)

/-- The operator `a - b`. -/
def sub (a b : JsNum) : JsNum := a.add b.neg

/-- The product of an infinity of the given sign (true for the positive one) by a finite
number: `NaN` for 0. -/
def infTimes (positive : Bool) (n : Int) : JsNum :=
  if n = 0 then nan else if (decide (0 < n)) = positive then posInf else negInf

/-- The operator `a * b`. -/
def mul : JsNum → JsNum → JsNum
  | nan, _ => nan
  | _, nan => nan
  | fin a, fin b => ofInt (a * b)
  | fin a, posInf => infTimes true a
  | fin a, negInf => infTimes false a
  | posInf, fin b => infTimes true b
  | negInf, fin b => infTimes false b
  | posInf, posInf => posInf
  | posInf, negInf => negInf
  | negInf, posInf => negInf
  | negInf, negInf => posInf

/-- The comparison `a < b`, false when an operand is `NaN`. -/
def lt : JsNum → JsNum → Bool
  | nan, _ => false
  | _, nan => false
  | fin a, fin b => decide (a < b)
  | _, negInf => false
  | negInf, _ => true
  | posInf, _ => false
  | fin _, posInf => true

/-- The comparison `a <= b`, false when an operand is `NaN`. -/
def le : JsNum → JsNum → Bool
  | nan, _ => false
  | _, nan => false
  | fin a, fin b => decide (a ≤ b)
  | negInf, _ => true
  | _, posInf => true
  | _, negInf => false
  | posInf, _ => false

end JsNum

/-! ## `parseInt` -/

/-- The characters `parseInt` skips at the start of its input (StrWhiteSpaceChar of the
language specification: white space and line terminators). -/
def isStrWhiteSpace (c : Char) : Bool :=
  [0x09, 0x0A, 0x0B, 0x0C, 0x0D, 0x20, 0xA0, 0x1680, 0x2028, 0x2029, 0x202F, 0x205F, 0x3000,
    0xFEFF].contains c.toNat || (0x2000 ≤ c.toNat && c.toNat ≤ 0x200A)

/-- The value of a character as a digit: 0 to 9 for the decimal digits, 10 to 35 for the
letters, in either case. -/
def digitValue (c : Char) : Option Nat :=
  if 48 ≤ c.toNat ∧ c.toNat ≤ 57 then some (c.toNat - 48)
  else if 97 ≤ c.toNat ∧ c.toNat ≤ 122 then some (c.toNat - 97 + 10)
  else if 65 ≤ c.toNat ∧ c.toNat ≤ 90 then some (c.toNat - 65 + 10)
  else none

/-- Whether a character is a digit of the given radix. -/
def isRadixDigit (radix : Nat) (c : Char) : Bool :=
  match digitValue c with
  | some d => decide (d < radix)
  | none => false

/-- The integer written by a sequence of digits in the given radix. -/
def mathInt (radix : Nat) (z : List Char) : Nat :=
  z.foldl (fun acc c => acc * radix + (digitValue c).getD 0) 0

/-- The sign step of `parseInt`: a leading minus or plus sign is removed, and a minus sign
makes the sign negative. -/
def stripSign (s : List Char) : Int × List Char :=
  match s with
  | c :: rest => if c = '-' then (-1, rest) else if c = '+' then (1, rest) else (1, s)
  | [] => (1, s)

/-- The radix step of `parseInt` when no radix is passed: radix 16 after a leading 0x or 0X,
which is removed, else radix 10. -/
def stripHex (s : List Char) : Nat × List Char :=
  match s with
  | c :: d :: rest => if c = '0' ∧ (d = 'x' ∨ d = 'X') then (16, rest) else (10, s)
  | _ => (10, s)

/-- The exact integer `parseInt(string)` reads, sign times the value of the digits, before it
is made a number; `none` when there is no digit to read. -/
def signedMathInt (inputString : String) : Option Int :=
  let s := inputString.data.dropWhile isStrWhiteSpace
  let signed := stripSign s
  let based := stripHex signed.2
  let z := based.2.takeWhile (isRadixDigit based.1)
  if z.isEmpty then none else some (signed.1 * (mathInt based.1 z : Int))

/-- The function `parseInt(string)` on a string, without radix argument: `NaN` when there is
no digit to read, else the double nearest to the integer read. -/
def parseIntString (inputString : String) : JsNum :=
  match signedMathInt inputString with
  | some n => JsNum.ofInt n
  | none => JsNum.nan

/-- The call `parseInt(value)` on a query value: a string, or `undefined` (here `none`) when
the query has no such parameter, which is first converted to the string undefined. -/
def parseInt (value : Option String) : JsNum :=
  match value with
  | some s => parseIntString s
  | none => parseIntString "undefined"

/-! ## `parsePagination` -/

/-- The query object `req.query`: a mapping from parameter names to strings. -/
structure Query where
  props : List (String × String)
  deriving DecidableEq, Repr

/-- Property read `query.key`; `none` is `undefined`. -/
def Query.get (query : Query) (key : String) : Option String := query.props.lookup key

/-- The record `{ page, limit, skip }`. -/
structure PageParams where
  page : JsNum
  limit : JsNum
  skip : JsNum
  deriving DecidableEq, Repr

/-- The helper `parsePagination(query)`. -/
def parsePagination (query : Query) : PageParams :=
  let page := (parseInt (query.get "page")).or (JsNum.fin 1)
  let limit := (parseInt (query.get "limit")).or (JsNum.fin 10)
  let skip := (page.sub (JsNum.fin 1)).mul limit
  { page := page, limit := limit, skip := skip }

/-! ## `generatePaginationMeta` -/

/-- The number k for which the double nearest to `a / b` (both positive) is a multiple of
2^(log2 a - k), or of 1 / 2^(k - log2 a): 52 more than the logarithm of `b`, and one more when
the significand of `a` is below that of `b`, so that the quotient keeps 53 significant bits. -/
def quotientBits (a b : Nat) : Nat :=
  52 + log2 b + (if a * pow2 (log2 b) < b * pow2 (log2 a) then 1 else 0)

/-- The expression `Math.ceil(a / b)` for positive integers: the quotient is rounded to the
nearest double first, and the ceiling of that double is taken.  The quotient of a double by an
integer is no larger than the double, so it does not reach 2^1024; below 2^-1022 a double
keeps fewer bits, which leaves the ceiling at 1. -/
def ceilQuot (a b : Nat) : Nat :=
  let k := quotientBits a b
  if log2 a ≤ k then
    let scale := pow2 (k - log2 a)
    (roundHalfEven (a * scale) b + scale - 1) / scale
  else
    let ulp := pow2 (log2 a - k)
    roundHalfEven a (b * ulp) * ulp

/-- The floor of the double nearest to `a / b` for positive integers, which `Math.ceil` needs
for a negative quotient. -/
def floorQuot (a b : Nat) : Nat :=
  let k := quotientBits a b
  if log2 a ≤ k then
    let scale := pow2 (k - log2 a)
    roundHalfEven (a * scale) b / scale
  else
    let ulp := pow2 (log2 a - k)
    roundHalfEven a (b * ulp) * ulp

/-- The expression `Math.ceil(total / limit)`.  A division by zero gives `NaN` for `0 / 0` and
an infinity otherwise, a division by an infinity gives 0 for a finite dividend and `NaN` for
an infinite one, and `Math.ceil` returns `NaN` and the infinities unchanged. -/
def ceilDiv (total limit : JsNum) : JsNum :=
  match total, limit with
  | JsNum.nan, _ => JsNum.nan
  | _, JsNum.nan => JsNum.nan
  | JsNum.fin t, JsNum.fin l =>
    if l = 0 then
      if t = 0 then JsNum.nan else if 0 < t then JsNum.posInf else JsNum.negInf
    else if t = 0 then JsNum.fin 0
    else if decide (0 < t) = decide (0 < l) then JsNum.fin (ceilQuot t.natAbs l.natAbs : Nat)
    else JsNum.fin (-(floorQuot t.natAbs l.natAbs : Nat))
  | JsNum.fin _, _ => JsNum.fin 0
  | JsNum.posInf, JsNum.fin l => if 0 ≤ l then JsNum.posInf else JsNum.negInf
  | JsNum.negInf, JsNum.fin l => if 0 ≤ l then JsNum.negInf else JsNum.posInf
  | _, _ => JsNum.nan

/-- The record `generatePaginationMeta` returns. -/
structure PaginationMeta where
  total : JsNum
  page : JsNum
  limit : JsNum
  totalPages : JsNum
  hasNext : Bool
  hasPrev : Bool
  deriving DecidableEq, Repr

/-- The helper `generatePaginationMeta(total, page, limit)`. -/
def generatePaginationMeta (total page limit : JsNum) : PaginationMeta :=
  let totalPages := ceilDiv total limit
  { total := total
    page := page
    limit := limit
    totalPages := totalPages
    hasNext := JsNum.lt page totalPages
    hasPrev := JsNum.lt (JsNum.fin 1) page }

/-! ## Words of the specification -/

/-- The ceiling of `a / b` as the specification words it, in exact arithmetic: minus the floor
of the quotient of `-a` by `b`.  It is compared below with `ceilDiv`, which is what the code
computes. -/
def ceilQuotient (a b : Int) : Int := -(Int.fdiv (-a) b)

/-- A decimal digit, 0 to 9. -/
def isDecimalDigit (c : Char) : Bool := 48 ≤ c.toNat && c.toNat ≤ 57

/-- A numeric string, as the specification uses the word for a page or a limit: an optional
sign followed by one or more decimal digits, and nothing else. -/
def isNumericString (s : String) : Bool :=
  let digits := (stripSign s.data).2
  !digits.isEmpty && digits.all isDecimalDigit

/-- A string that opens with a decimal integer: after leading white space and an optional
sign, its first character is a decimal digit. -/
def startsWithDigit (s : String) : Bool :=
  match (stripSign (s.data.dropWhile isStrWhiteSpace)).2 with
  | c :: _ => isDecimalDigit c
  | [] => false

/-- A string that opens, after leading white space, with a minus sign. -/
def startsWithMinus (s : String) : Bool :=
  match s.data.dropWhile isStrWhiteSpace with
  | c :: _ => decide (c = '-')
  | [] => false

/-- A query value that carries no number: missing, or a string that does not open with a
decimal integer. -/
def lacksNumber (value : Option String) : Bool :=
  match value with
  | some s => !startsWithDigit s
  | none => true

/-- A query value that is a string opening with a minus sign. -/
def opensWithMinus (value : Option String) : Bool :=
  match value with
  | some s => startsWithMinus s
  | none => false

/-- The query with the given page and limit parameters. -/
def queryOf (page limit : String) : Query := ⟨[("page", page), ("limit", limit)]⟩

/-- A decimal numeral of 400 digits, all of them 9. -/
def hugeNumeral : String := String.mk (List.replicate 400 '9')

end Pagination

/-! # Response envelope of `src/utils/response.js` -/

namespace Response

/-- A JavaScript value as a response body carries it: the primitive values, arrays and plain
objects (properties in insertion order). -/
inductive Json where
  | undefined
  | null
  | bool (b : Bool)
  | num (n : Int)
  | str (s : String)
  | arr (items : List Json)
  | obj (props : List (String × Json))

/-- ToBoolean: `undefined`, `null`, `false`, `0` and the empty string are falsy; every array
and every object is truthy, the empty ones included. -/
def Json.truthy : Json → Bool
  | Json.undefined => false
  | Json.null => false
  | Json.bool b => b
  | Json.num n => n != 0
  | Json.str s => s != ""
  | Json.arr _ => true
  | Json.obj _ => true

/-- A parameter with a default value: the default is taken when the argument is omitted, that
is when it is `undefined`. -/
def Json.withDefault (arg dflt : Json) : Json :=
  match arg with
  | Json.undefined => dflt
  | v => v

/-- The names of the properties of an object. -/
def Json.keys : Json → List String
  | Json.obj props => props.map Prod.fst
  | _ => []

/-- Property read `o.key`: `undefined` when there is no such property. -/
def Json.get (o : Json) (key : String) : Json :=
  match o with
  | Json.obj props =>
    match props.lookup key with
    | some v => v
    | none => Json.undefined
  | _ => Json.undefined

/-- The response object the helpers write to: its status code and its JSON body. -/
structure Res where
  statusCode : Option Nat
  body : Option Json

/-- The method `res.status(code)`. -/
def Res.status (res : Res) (code : Nat) : Res := { res with statusCode := some code }

/-- The method `res.json(data)`. -/
def Res.json (res : Res) (data : Json) : Res := { res with body := some data }

/-- A response nothing was written to. -/
def createMockRes : Res := ⟨none, none⟩

/-- The helper `successResponse(res, data, message = 'Success', statusCode = 200)`; an omitted
message or status code is `none`. -/
def successResponse (res : Res) (data : Json) (message : Option String)
    (statusCode : Option Nat) : Res :=
  let message := message.getD "Success"
  let statusCode := statusCode.getD 200
  (res.status statusCode).json
    (Json.obj [("success", Json.bool true), ("message", Json.str message), ("data", data)])

/-- The helper `errorResponse(res, message = 'Error', statusCode = 500, errors = null)`; an
omitted message or status code is `none`, an omitted errors argument is `undefined`. -/
def errorResponse (res : Res) (message : Option String) (statusCode : Option Nat)
    (errors : Json) : Res :=
  let message := message.getD "Error"
  let statusCode := statusCode.getD 500
  let errors := errors.withDefault Json.null
  let response := [("success", Json.bool false), ("message", Json.str message)]
  let response := if errors.truthy then response ++ [("errors", errors)] else response
  (res.status statusCode).json (Json.obj response)

/-- The helper `paginatedResponse(res, data, pagination, message = 'Success')`; an omitted
message is `none`.  The status code is the literal 200. -/
def paginatedResponse (res : Res) (data : Json) (pagination : Json)
    (message : Option String) : Res :=
  let message := message.getD "Success"
  (res.status 200).json
    (Json.obj [("success", Json.bool true), ("message", Json.str message), ("data", data),
      ("pagination", pagination)])

end Response

/-! # Authentication middleware of `src/middleware/auth.js`

The middleware awaits two outside calls, `jwt.verify` and `prisma.user.findUnique`.  Both are
parameters of the model: each either returns a value or throws an error, of which the `catch`
block looks at the name only. -/

namespace Auth

/-- A row of the role table, as far as the middleware reads it. -/
structure Role where
  name : String
  deriving DecidableEq, Repr

/-- A row linking a user to a role, with the role included. -/
structure UserRole where
  role : Role
  deriving DecidableEq, Repr

/-- The lecturer profile of a user, as far as the middleware reads it. -/
structure Lecturer where
  id : String
  deriving DecidableEq, Repr

/-- The user `prisma.user.findUnique` returns, with its roles (in the order the database
returns them) and its lecturer profile included. -/
structure UserRow where
  id : String
  email : String
  fullName : String
  institutionId : String
  isActive : Bool
  roles : List UserRole
  lecturer : Option Lecturer
  deriving DecidableEq, Repr

/-- The object the middleware assigns to `req.user`. -/
structure Identity where
  id : String
  email : String
  fullName : String
  institutionId : String
  roles : List String
  lecturerId : Authorize.JsVal
  deriving DecidableEq, Repr

/-- The outside calls.  `verify token` is `jwt.verify(token, JWT_SECRET)`: the `userId` of the
decoded payload, or the name of the error thrown; the token is `none` when it is `undefined`.
`findUnique id` is the database lookup: the user, `none` for `null`, or the name of the error
thrown. -/
structure Env where
  verify : Option String → Except String String
  findUnique : String → Except String (Option UserRow)

/-- What the middleware can change: `req.user` (`none` while unset), the response and the
number of calls of `next`. -/
structure State where
  user : Option Identity
  ctx : Authorize.Ctx
  deriving DecidableEq, Repr

/-- The method `String.prototype.startsWith`, on the characters of the two strings. -/
def startsWith : List Char → List Char → Bool
  | _, [] => true
  | [], _ :: _ => false
  | c :: s, d :: p => c == d && startsWith s p

/-- The method `String.prototype.split` with a one-character separator. -/
def split (sep : Char) : List Char → List (List Char)
  | [] => [[]]
  | c :: rest =>
    if c = sep then [] :: split sep rest
    else
      match split sep rest with
      | [] => [[c]]
      | head :: tail => (c :: head) :: tail

/-- The statement `return res.status(code).json({ success: false, message })`. -/
def State.deny (s : State) (code : Nat) (message : String) : State :=
  { s with ctx := s.ctx.send code (Authorize.failure message) }

/-- The `catch` block, which dispatches on `error.name`. -/
def onError (name : String) (s : State) : State :=
  if name = "TokenExpiredError" then s.deny 401 "Token expired"
  else if name = "JsonWebTokenError" then s.deny 401 "Invalid token"
  else s.deny 500 "Authentication error"

/-- The expression `user.lecturer?.id || null`. -/
def lecturerIdOf (user : UserRow) : Authorize.JsVal :=
  (match user.lecturer with
    | some lecturer => Authorize.JsVal.str lecturer.id
    | none => Authorize.JsVal.undefined).or Authorize.JsVal.null

/-- The middleware `authenticate(req, res, next)`; `authorization` is
`req.headers.authorization`, `none` when the header is absent. -/
def authenticate (env : Env) (authorization : Option String) (s : State) : State :=
  match authorization with
  | none => s.deny 401 "Access token is required"
  | some authHeader =>
    if authHeader = "" || !startsWith authHeader.data "Bearer ".data then
      s.deny 401 "Access token is required"
    else
      let token := ((split ' ' authHeader.data)[1]?).map String.mk
      match env.verify token with
      | Except.error name => onError name s
      | Except.ok userId =>
        match env.findUnique userId with
        | Except.error name => onError name s
        | Except.ok none => s.deny 401 "User not found or inactive"
        | Except.ok (some user) =>
          if !user.isActive then s.deny 401 "User not found or inactive"
          else
            { user := some
                { id := user.id
                  email := user.email
                  fullName := user.fullName
                  institutionId := user.institutionId
                  roles := user.roles.map (fun ur => ur.role.name)
                  lecturerId := lecturerIdOf user }
              ctx := s.ctx.next }

/-- The token the middleware passes to `jwt.verify`. -/
def tokenOf (authHeader : String) : Option String :=
  ((split ' ' authHeader.data)[1]?).map String.mk

/-- The conditions under which the request is let through: a header that starts with Bearer
and a blank, a token that verifies, and a user that exists and is active. -/
def Accepted (env : Env) (authorization : Option String) : Prop :=
  ∃ (authHeader userId : String) (user : UserRow),
    authorization = some authHeader
      ∧ startsWith authHeader.data "Bearer ".data = true
      ∧ env.verify (tokenOf authHeader) = Except.ok userId
      ∧ env.findUnique userId = Except.ok (some user)
      ∧ user.isActive = true

/-- A request on which nothing was attached, written or called yet. -/
def State.fresh : State := ⟨none, Authorize.Ctx.fresh⟩

/-- An active lecturer with two roles and the lecturer profile lec-7. -/
def sampleUser : UserRow :=
  { id := "u1", email := "a@b.c", fullName := "A", institutionId := "i1", isActive := true,
    roles := [⟨⟨"DOSEN"⟩⟩, ⟨⟨"KAPRODI"⟩⟩], lecturer := some ⟨"lec-7"⟩ }

/-- An environment in which the token good verifies to the user u1, every other token is
invalid, and u1 is the sample user. -/
def sampleEnv : Env :=
  { verify := fun token =>
      if token = some "good" then Except.ok "u1" else Except.error "JsonWebTokenError"
    findUnique := fun id => if id = "u1" then Except.ok (some sampleUser) else Except.ok none }

end Auth

/-! # Handlers of `src/api/note/controller.js` and `src/api/review/controller.js`

A handler reads and writes one table through the database client.  The table is threaded
through the model; each call of the client either succeeds or throws, which sends the handler
to its `catch` block.  The relations the client joins to the row it returns (`include`) come
from other tables and are a parameter, `render`. -/

namespace Prisma

/-- A table, and whether the lookup and the update of the request at hand throw. -/
structure Table (α : Type) where
  rows : List α
  findThrows : Bool
  updateThrows : Bool
  deriving DecidableEq, Repr

end Prisma

namespace Response

/-- The message of the body written to a response, when it is a string. -/
def Res.message (res : Res) : Option String :=
  match res.body with
  | some body =>
    match body.get "message" with
    | Json.str message => some message
    | _ => none
  | none => none

/-- The success flag of the body written to a response, when it is a boolean. -/
def Res.success (res : Res) : Option Bool :=
  match res.body with
  | some body =>
    match body.get "success" with
    | Json.bool flag => some flag
    | _ => none
  | none => none

end Response

namespace Notes

/-- A row of the note table, as far as the update handler reads and writes it. -/
structure Note where
  id : String
  createdByUserId : String
  noteText : Authorize.JsVal
  deriving DecidableEq, Repr

/-- The data of `prisma.note.update`: the note text is replaced when the one of the body is
truthy. -/
def applyUpdate (noteText : Authorize.JsVal) (note : Note) : Note :=
  if noteText.truthy then { note with noteText := noteText } else note

/-- The handler `update(req, res)` of the note controller; `id` is `req.params.id`, `user` is
`req.user`, `body` is `req.body`. -/
def update (render : Note → Response.Json) (db : Prisma.Table Note) (user : Auth.Identity)
    (id : String) (body : Authorize.JsObj) (res : Response.Res) :
    Prisma.Table Note × Response.Res :=
  let noteText := body.get "noteText"
  if db.findThrows then
    (db, Response.errorResponse res (some "Failed to update note") none Response.Json.undefined)
  else
    match db.rows.find? (fun note => note.id == id) with
    | none =>
      (db, Response.errorResponse res (some "Note not found") (some 404)
        Response.Json.undefined)
    | some existing =>
      if existing.createdByUserId ≠ user.id
          ∧ (!Authorize.JsArray.includes user.roles "ADMIN") = true then
        (db, Response.errorResponse res (some "You can only update your own notes") (some 403)
          Response.Json.undefined)
      else if db.updateThrows then
        (db, Response.errorResponse res (some "Failed to update note") none
          Response.Json.undefined)
      else
        ({ db with rows := db.rows.map (fun note =>
              if note.id == id then applyUpdate noteText note else note) },
          Response.successResponse res (render (applyUpdate noteText existing))
            (some "Note updated successfully") none)

/-- A table with one note, written by the user u1. -/
def sampleDb : Prisma.Table Note :=
  ⟨[⟨"n1", "u1", Authorize.JsVal.str "first"⟩], false, false⟩

/-- A requesting user with the given id and roles. -/
def userOf (id : String) (roles : List String) : Auth.Identity :=
  ⟨id, "x@y.z", "X", "i1", roles, Authorize.JsVal.null⟩

/-- The rendering that keeps the id and the text only. -/
def renderNote (note : Note) : Response.Json :=
  Response.Json.obj [("id", Response.Json.str note.id)]

/-- A body with the given note text. -/
def bodyOf (noteText : String) : Authorize.JsObj :=
  ⟨[("noteText", Authorize.JsVal.str noteText)]⟩

end Notes

namespace Reviews

/-- A row of the review table, as far as the update and complete handlers read and write
it; `completedAt` is a time stamp, `none` for `null`. -/
structure Review where
  id : String
  status : String
  decision : Authorize.JsVal
  summary : Authorize.JsVal
  completedAt : Option Nat
  deriving DecidableEq, Repr

/-- A field of the data of an update: the client leaves the column alone when the value is
`undefined`. -/
def setField (value old : Authorize.JsVal) : Authorize.JsVal :=
  if value = Authorize.JsVal.undefined then old else value

/-- The data of the update handler: the summary, when the body has one. -/
def applyUpdate (summary : Authorize.JsVal) (review : Review) : Review :=
  { review with summary := setField summary review.summary }

/-- The data of the complete handler: decision, summary, the status COMPLETED and the current
time. -/
def applyComplete (decision summary : Authorize.JsVal) (now : Nat) (review : Review) : Review :=
  { review with
    decision := setField decision review.decision
    summary := setField summary review.summary
    status := "COMPLETED"
    completedAt := some now }

/-- The handler `update(req, res)` of the review controller. -/
def update (render : Review → Response.Json) (db : Prisma.Table Review) (id : String)
    (body : Authorize.JsObj) (res : Response.Res) : Prisma.Table Review × Response.Res :=
  let summary := body.get "summary"
  if db.findThrows then
    (db, Response.errorResponse res (some "Failed to update review") none
      Response.Json.undefined)
  else
    match db.rows.find? (fun review => review.id == id) with
    | none =>
      (db, Response.errorResponse res (some "Review not found") (some 404)
        Response.Json.undefined)
    | some existing =>
      if existing.status = "COMPLETED" then
        (db, Response.errorResponse res (some "Cannot update completed review") (some 400)
          Response.Json.undefined)
      else if db.updateThrows then
        (db, Response.errorResponse res (some "Failed to update review") none
          Response.Json.undefined)
      else
        ({ db with rows := db.rows.map (fun review =>
              if review.id == id then applyUpdate summary review else review) },
          Response.successResponse res (render (applyUpdate summary existing))
            (some "Review updated successfully") none)

/-- The handler `complete(req, res)` of the review controller; `now` is `new Date()`. -/
def complete (render : Review → Response.Json) (now : Nat) (db : Prisma.Table Review)
    (id : String) (body : Authorize.JsObj) (res : Response.Res) :
    Prisma.Table Review × Response.Res :=
  let decision := body.get "decision"
  let summary := body.get "summary"
  if !decision.truthy then
    (db, Response.errorResponse res (some "Decision is required") (some 400)
      Response.Json.undefined)
  else if db.findThrows then
    (db, Response.errorResponse res (some "Failed to complete review") none
      Response.Json.undefined)
  else
    match db.rows.find? (fun review => review.id == id) with
    | none =>
      (db, Response.errorResponse res (some "Review not found") (some 404)
        Response.Json.undefined)
    | some existing =>
      if existing.status = "COMPLETED" then
        (db, Response.errorResponse res (some "Review already completed") (some 400)
          Response.Json.undefined)
      else if db.updateThrows then
        (db, Response.errorResponse res (some "Failed to complete review") none
          Response.Json.undefined)
      else
        ({ db with rows := db.rows.map (fun review =>
              if review.id == id then applyComplete decision summary now review
              else review) },
          Response.successResponse res (render (applyComplete decision summary now existing))
            (some "Review completed successfully") none)

/-- A table with a completed review r1 and an open review r2. -/
def sampleDb : Prisma.Table Review :=
  ⟨[⟨"r1", "COMPLETED", Authorize.JsVal.str "APPROVED", Authorize.JsVal.str "fine", some 5⟩,
    ⟨"r2", "OPEN", Authorize.JsVal.null, Authorize.JsVal.null, none⟩], false, false⟩

/-- A body with the given decision. -/
def bodyOf (decision : String) : Authorize.JsObj :=
  ⟨[("decision", Authorize.JsVal.str decision)]⟩

/-- The rendering that keeps the id only. -/
def renderId (review : Review) : Response.Json :=
  Response.Json.obj [("id", Response.Json.str review.id)]

end Reviews

namespace Authorize

/-! ## Basic facts -/

theorem includes_iff (xs : List String) (x : String) :
    JsArray.includes xs x = true ↔ x ∈ xs := by
  simp [JsArray.includes]

theorem some_includes_iff (allowedRoles userRoles : List String) :
    JsArray.some allowedRoles (fun role => JsArray.includes userRoles role) = true
      ↔ ∃ role ∈ allowedRoles, role ∈ userRoles := by
  simp [JsArray.some, JsArray.includes]

theorem send_ne_next (c : Ctx) (code : Nat) (data : JsObj) : c.send code data ≠ c.next := by
  intro h
  have hn := congrArg Ctx.nextCalls h
  simp [Ctx.send, Ctx.next] at hn

theorem send_nextCalls (c : Ctx) (code : Nat) (data : JsObj) :
    (c.send code data).nextCalls = c.nextCalls := rfl

/-- The role gate on an authenticated request, as a two-way choice. -/
theorem authorize_obj (allowedRoles : List String) (req : Req) (user : User) (c : Ctx)
    (hu : req.user = ReqUser.obj user) :
    authorize allowedRoles req c =
      if JsArray.includes user.roles "ADMIN"
          || JsArray.some allowedRoles (fun role => JsArray.includes user.roles role) then
        c.next
      else
        c.send 403 (failure "Access denied. Insufficient permissions.") := by
  unfold authorize
  rw [hu]
  by_cases ha : JsArray.includes user.roles "ADMIN" = true
  · simp [ha]
  · by_cases hr : JsArray.some allowedRoles (fun role => JsArray.includes user.roles role) = true
    · simp [ha, hr]
    · simp [ha, hr]

/-- The owner-or-role gate on an authenticated request whose target can be read, as a two-way
choice. -/
theorem authorizeOwnerOrRoles_obj (allowedRoles : List String) (req : Req) (user : User)
    (target : JsVal) (c : Ctx) (hu : req.user = ReqUser.obj user)
    (ht : targetLecturerId req = some target) :
    authorizeOwnerOrRoles allowedRoles req c =
      if JsArray.includes user.roles "ADMIN"
          || isOwner user target
          || JsArray.some allowedRoles (fun role => JsArray.includes user.roles role) then
        c.next
      else
        c.send 403 (failure "Access denied. You can only access your own data.") := by
  unfold authorizeOwnerOrRoles
  rw [hu]
  simp only [ht]
  by_cases ha : JsArray.includes user.roles "ADMIN" = true
  · simp [ha]
  · by_cases ho : isOwner user target = true
    · simp [ha, ho]
    · by_cases hr : JsArray.some allowedRoles (fun role => JsArray.includes user.roles role) = true
      · simp [ha, ho, hr]
      · simp [ha, ho, hr]

/-- The owner-or-role gate on an authenticated request whose target cannot be read: the
TypeError leaves the gate before any role is looked at. -/
theorem authorizeOwnerOrRoles_throw (allowedRoles : List String) (req : Req) (user : User)
    (c : Ctx) (hu : req.user = ReqUser.obj user) (ht : targetLecturerId req = none) :
    authorizeOwnerOrRoles allowedRoles req c = c.throw "TypeError" := by
  unfold authorizeOwnerOrRoles
  rw [hu]
  simp only [ht]

theorem truthy_bool (b : Bool) : (JsVal.bool b).truthy = b := rfl

/-- Ownership holds exactly for a truthy lecturer id strictly equal to the target. -/
theorem isOwner_iff (user : User) (target : JsVal) :
    isOwner user target = true
      ↔ user.lecturerId.truthy = true ∧ user.lecturerId.strictEq target = true := by
  unfold isOwner JsVal.and
  by_cases ht : user.lecturerId.truthy = true
  · rw [if_pos ht, truthy_bool]
    simp [ht]
  · rw [if_neg ht]
    simp [ht]

/-- Strict equality is equality of values. -/
theorem strictEq_iff (a b : JsVal) : a.strictEq b = true ↔ a = b := by
  cases a <;> cases b <;> simp [JsVal.strictEq]

theorem calledNext_next (c : Ctx) : CalledNext c c.next := ⟨rfl, rfl⟩

theorem not_calledNext_send (c : Ctx) (code : Nat) (data : JsObj) :
    ¬ CalledNext c (c.send code data) := by
  intro h
  have hn := h.1
  simp [Ctx.send] at hn

theorem responded_send (c : Ctx) (code : Nat) (message : String) :
    Responded c (c.send code (failure message)) code message := ⟨rfl, rfl, rfl⟩

theorem not_calledNext_of_responded (c out : Ctx) (code : Nat) (message : String)
    (h : Responded c out code message) : ¬ CalledNext c out := by
  intro hn
  have h1 := hn.1
  have h2 := h.2.2
  omega

theorem not_calledNext_throw (c : Ctx) (name : String) : ¬ CalledNext c (c.throw name) := by
  intro h
  have hn := h.1
  simp [Ctx.throw] at hn

/-- The role gate calls `next` exactly when its role test succeeds. -/
theorem authorize_calledNext_iff (allowedRoles : List String) (req : Req) (user : User)
    (c : Ctx) (hu : req.user = ReqUser.obj user) :
    CalledNext c (authorize allowedRoles req c)
      ↔ ("ADMIN" ∈ user.roles ∨ ∃ role ∈ allowedRoles, role ∈ user.roles) := by
  rw [authorize_obj allowedRoles req user c hu, ← includes_iff, ← some_includes_iff]
  by_cases h : (JsArray.includes user.roles "ADMIN"
      || JsArray.some allowedRoles (fun role => JsArray.includes user.roles role)) = true
  · rw [if_pos h]
    simpa [calledNext_next] using h
  · rw [if_neg h]
    simpa [not_calledNext_send] using h

/-- The owner-or-role gate calls `next` exactly when its target can be read and one of its
three tests succeeds. -/
theorem authorizeOwnerOrRoles_calledNext_iff (allowedRoles : List String) (req : Req)
    (user : User) (c : Ctx) (hu : req.user = ReqUser.obj user) :
    CalledNext c (authorizeOwnerOrRoles allowedRoles req c)
      ↔ ∃ target, targetLecturerId req = some target
          ∧ ("ADMIN" ∈ user.roles ∨ isOwner user target = true
              ∨ ∃ role ∈ allowedRoles, role ∈ user.roles) := by
  cases ht : targetLecturerId req with
  | none =>
    rw [authorizeOwnerOrRoles_throw allowedRoles req user c hu ht]
    constructor
    · intro h
      exact absurd h (not_calledNext_throw c _)
    · rintro ⟨target, h, _⟩
      cases h
  | some target =>
    rw [authorizeOwnerOrRoles_obj allowedRoles req user target c hu ht, ← includes_iff,
      ← some_includes_iff]
    by_cases h : (JsArray.includes user.roles "ADMIN" || isOwner user target
        || JsArray.some allowedRoles (fun role => JsArray.includes user.roles role)) = true
    · rw [if_pos h]
      constructor
      · intro _
        refine ⟨target, rfl, ?_⟩
        simpa [or_assoc] using h
      · intro _
        exact calledNext_next c
    · rw [if_neg h]
      constructor
      · intro hc
        exact absurd hc (not_calledNext_send c 403 _)
      · rintro ⟨target2, h2, h3⟩
        have h4 : target2 = target := (Option.some.inj h2).symm
        rw [h4] at h3
        exact absurd (by simpa [or_assoc] using h3) h

/-- Without an identity the role gate does not call `next`. -/
theorem unauthenticated_denied (allowedRoles : List String) (req : Req) (c : Ctx)
    (hu : req.user = ReqUser.undefined ∨ req.user = ReqUser.null) :
    ¬ CalledNext c (authorize allowedRoles req c) := by
  have h1 : authorize allowedRoles req c = c.send 401 (failure "Authentication required") := by
    unfold authorize
    rcases hu with hu | hu <;> rw [hu]
  rw [h1]
  exact not_calledNext_send c 401 _

/-! ## The administrator override -/

/-- C1 fails on the code: on a request to GET /lecturers/:id/dashboard that carries no body,
where `req.body` is undefined, the owner-or-role gate of that route throws a TypeError for an
administrator and does not call `next`, while the role gate with the same roles calls `next`.
The gate reads `req.body.lecturerId` before it looks at the roles. -/
theorem admin_without_body_throws :
    adminDashboardReq.user = ReqUser.obj ⟨["ADMIN"], JsVal.str "lec-1"⟩
      ∧ "ADMIN" ∈ ["ADMIN"]
      ∧ adminDashboardReq.params.get "id" = JsVal.str "lec-1"
      ∧ adminDashboardReq.body = none
      ∧ CalledNext Ctx.fresh (authorize dashboardRoles adminDashboardReq Ctx.fresh)
      ∧ authorizeOwnerOrRoles dashboardRoles adminDashboardReq Ctx.fresh
          = Ctx.fresh.throw "TypeError"
      ∧ ¬ CalledNext Ctx.fresh (authorizeOwnerOrRoles dashboardRoles adminDashboardReq Ctx.fresh)
      ∧ (authorizeOwnerOrRoles dashboardRoles adminDashboardReq Ctx.fresh).nextCalls = 0 := by
  decide

/-- When the target can be read, an administrator passes the owner-or-role gate. -/
theorem admin_passes_when_target_read (allowedRoles : List String) (req : Req) (user : User)
    (target : JsVal) (c : Ctx) (hu : req.user = ReqUser.obj user)
    (ht : targetLecturerId req = some target) (hadmin : "ADMIN" ∈ user.roles) :
    CalledNext c (authorizeOwnerOrRoles allowedRoles req c) :=
  (authorizeOwnerOrRoles_calledNext_iff allowedRoles req user c hu).2
    ⟨target, ht, Or.inl hadmin⟩

/-! ## Unauthenticated requests -/

/-- C2: when `req.user` is absent or null, both gates answer 401 with the body made of success
false and the message Authentication required, and do not call `next`, for every list of allowed
roles. -/
theorem unauthenticated_gets_401 (allowedRoles : List String) (req : Req) (c : Ctx)
    (hu : req.user = ReqUser.undefined ∨ req.user = ReqUser.null) :
    Responded c (authorize allowedRoles req c) 401 "Authentication required"
      ∧ Responded c (authorizeOwnerOrRoles allowedRoles req c) 401 "Authentication required"
      ∧ ¬ CalledNext c (authorize allowedRoles req c)
      ∧ ¬ CalledNext c (authorizeOwnerOrRoles allowedRoles req c) := by
  have h1 : authorize allowedRoles req c = c.send 401 (failure "Authentication required") := by
    unfold authorize
    rcases hu with hu | hu <;> rw [hu]
  have h2 : authorizeOwnerOrRoles allowedRoles req c
      = c.send 401 (failure "Authentication required") := by
    unfold authorizeOwnerOrRoles
    rcases hu with hu | hu <;> rw [hu]
  rw [h1, h2]
  exact ⟨responded_send c 401 _, responded_send c 401 _, not_calledNext_send c 401 _,
    not_calledNext_send c 401 _⟩

theorem unauthenticated_gets_401_witness :
    (anonymousReq.user = ReqUser.undefined ∨ anonymousReq.user = ReqUser.null)
      ∧ Responded Ctx.fresh (authorize ["DOSEN"] anonymousReq Ctx.fresh) 401
          "Authentication required"
      ∧ Responded Ctx.fresh (authorizeOwnerOrRoles ["DOSEN"] anonymousReq Ctx.fresh) 401
          "Authentication required"
      ∧ ¬ CalledNext Ctx.fresh (authorize ["DOSEN"] anonymousReq Ctx.fresh)
      ∧ ¬ CalledNext Ctx.fresh (authorizeOwnerOrRoles ["DOSEN"] anonymousReq Ctx.fresh) :=
  ⟨Or.inr rfl, unauthenticated_gets_401 ["DOSEN"] anonymousReq Ctx.fresh (Or.inr rfl)⟩

/-! ## The role gate -/

/-- C3: when `req.user` is present, the role gate calls `next` if and only if the roles of the
user contain ADMIN or some element of the allowed roles is one of the roles of the user. -/
theorem authorize_next_iff_admin_or_shared_role (allowedRoles : List String) (req : Req)
    (user : User) (c : Ctx) (hu : req.user = ReqUser.obj user) :
    CalledNext c (authorize allowedRoles req c)
      ↔ ("ADMIN" ∈ user.roles ∨ ∃ role ∈ allowedRoles, role ∈ user.roles) :=
  authorize_calledNext_iff allowedRoles req user c hu

theorem authorize_next_iff_admin_or_shared_role_witness :
    dosenReq.user = ReqUser.obj ⟨["DOSEN"], JsVal.undefined⟩
      ∧ (CalledNext Ctx.fresh (authorize ["DOSEN", "KAPRODI"] dosenReq Ctx.fresh)
          ↔ ("ADMIN" ∈ ["DOSEN"] ∨ ∃ role ∈ ["DOSEN", "KAPRODI"], role ∈ ["DOSEN"])) :=
  ⟨rfl, authorize_next_iff_admin_or_shared_role ["DOSEN", "KAPRODI"] dosenReq
    ⟨["DOSEN"], JsVal.undefined⟩ Ctx.fresh rfl⟩

/-! ## The owner-or-role gate -/

/-- A truthy lecturer id that equals the target as the specification words it is the target the
gate computes. -/
theorem strictEq_statedTarget (req : Req) (v target : JsVal) (ht : v.truthy = true)
    (hs : statedTarget req = some target) (he : v.strictEq target = true) :
    targetLecturerId req = some target := by
  rw [strictEq_iff] at he
  unfold statedTarget at hs
  unfold targetLecturerId
  by_cases hp : req.params.get "lecturerId" = JsVal.undefined
  · rw [if_pos hp] at hs
    rw [hp]
    cases hb : req.body with
    | none =>
      rw [hb] at hs
      cases hs
    | some body =>
      rw [hb] at hs
      simpa [JsVal.truthy] using hs
  · rw [if_neg hp] at hs
    have h1 : req.params.get "lecturerId" = v := by
      rw [he]
      exact Option.some.inj hs
    rw [h1, if_pos ht, ← he]

/-- A lecturer id as the authentication step attaches it is truthy unless it is null. -/
theorem attached_truthy (v : JsVal) (hatt : attachedLecturerId v = true) (hnn : v ≠ JsVal.null) :
    v.truthy = true := by
  cases v <;> simp_all [attachedLecturerId, JsVal.isId, JsVal.truthy]

/-- A path parameter as the router sets it is truthy unless it is absent. -/
theorem routed_truthy (v : JsVal) (hr : routedParam v = true) (hp : v ≠ JsVal.undefined) :
    v.truthy = true := by
  cases v <;> simp_all [routedParam, JsVal.isId, JsVal.truthy]

/-- C4: when `req.user` is present with a lecturer id, as the authentication step attaches it,
that is not null and is strictly equal to the target lecturer id (params.lecturerId, or
body.lecturerId when the path has none), the owner-or-role gate calls `next` for every list of
allowed roles, the empty list and lists sharing no role with the user included.  The target may
be read as the gate computes it or as the specification words it. -/
theorem owner_passes_owner_gate (allowedRoles : List String) (req : Req) (user : User)
    (target : JsVal) (c : Ctx) (hu : req.user = ReqUser.obj user)
    (hatt : attachedLecturerId user.lecturerId = true) (hnn : user.lecturerId ≠ JsVal.null)
    (ht : targetLecturerId req = some target ∨ statedTarget req = some target)
    (he : user.lecturerId.strictEq target = true) :
    CalledNext c (authorizeOwnerOrRoles allowedRoles req c) := by
  have htr := attached_truthy user.lecturerId hatt hnn
  have ht2 : targetLecturerId req = some target := by
    rcases ht with ht | ht
    · exact ht
    · exact strictEq_statedTarget req user.lecturerId target htr ht he
  exact (authorizeOwnerOrRoles_calledNext_iff allowedRoles req user c hu).2
    ⟨target, ht2, Or.inr (Or.inl ((isOwner_iff user target).2 ⟨htr, he⟩))⟩

theorem owner_passes_owner_gate_witness :
    ownerReq.user = ReqUser.obj ⟨["DOSEN"], JsVal.str "lec-123"⟩
      ∧ attachedLecturerId (JsVal.str "lec-123") = true
      ∧ JsVal.str "lec-123" ≠ JsVal.null
      ∧ statedTarget ownerReq = some (JsVal.str "lec-123")
      ∧ (JsVal.str "lec-123").strictEq (JsVal.str "lec-123") = true
      ∧ CalledNext Ctx.fresh (authorizeOwnerOrRoles [] ownerReq Ctx.fresh) :=
  ⟨rfl, by decide, by decide, by decide, by decide,
    owner_passes_owner_gate [] ownerReq ⟨["DOSEN"], JsVal.str "lec-123"⟩ (JsVal.str "lec-123")
      Ctx.fresh rfl (by decide) (by decide) (Or.inr (by decide)) (by decide)⟩

/-- C5: when `req.user` is present, its roles neither contain ADMIN nor share an element with
the allowed roles, and its lecturer id differs from the target lecturer id, the owner-or-role
gate answers 403 with the message Access denied. You can only access your own data. and does
not call `next`; the role gate answers the same request with another message, so the two
bodies differ. -/
theorem non_owner_without_role_gets_403 (allowedRoles : List String) (req : Req) (user : User)
    (target : JsVal) (c : Ctx) (hu : req.user = ReqUser.obj user)
    (hadmin : "ADMIN" ∉ user.roles)
    (hshare : ∀ role ∈ allowedRoles, role ∉ user.roles)
    (ht : targetLecturerId req = some target)
    (hdiff : user.lecturerId.strictEq target = false) :
    Responded c (authorizeOwnerOrRoles allowedRoles req c) 403
        "Access denied. You can only access your own data."
      ∧ ¬ CalledNext c (authorizeOwnerOrRoles allowedRoles req c)
      ∧ Responded c (authorize allowedRoles req c) 403
          "Access denied. Insufficient permissions."
      ∧ (authorizeOwnerOrRoles allowedRoles req c).res.body
          ≠ (authorize allowedRoles req c).res.body := by
  have ha : JsArray.includes user.roles "ADMIN" = false := by
    rw [← Bool.not_eq_true, includes_iff]
    exact hadmin
  have hr : JsArray.some allowedRoles (fun role => JsArray.includes user.roles role) = false := by
    rw [← Bool.not_eq_true, some_includes_iff]
    rintro ⟨role, h1, h2⟩
    exact hshare role h1 h2
  have ho : isOwner user target = false := by
    rw [← Bool.not_eq_true, isOwner_iff, hdiff]
    simp
  rw [authorizeOwnerOrRoles_obj allowedRoles req user target c hu ht,
    authorize_obj allowedRoles req user c hu, ha, hr, ho]
  refine ⟨responded_send c 403 _, not_calledNext_send c 403 _, responded_send c 403 _, ?_⟩
  simp [Ctx.send, Res.json, Res.status, failure]

theorem non_owner_without_role_gets_403_witness :
    strangerReq.user = ReqUser.obj ⟨["DOSEN"], JsVal.str "lec-1"⟩
      ∧ "ADMIN" ∉ ["DOSEN"]
      ∧ (∀ role ∈ ["KAPRODI", "DEKAN"], role ∉ ["DOSEN"])
      ∧ targetLecturerId strangerReq = some (JsVal.str "lec-999")
      ∧ (JsVal.str "lec-1").strictEq (JsVal.str "lec-999") = false
      ∧ Responded Ctx.fresh (authorizeOwnerOrRoles ["KAPRODI", "DEKAN"] strangerReq Ctx.fresh)
          403 "Access denied. You can only access your own data."
      ∧ ¬ CalledNext Ctx.fresh (authorizeOwnerOrRoles ["KAPRODI", "DEKAN"] strangerReq Ctx.fresh)
      ∧ Responded Ctx.fresh (authorize ["KAPRODI", "DEKAN"] strangerReq Ctx.fresh) 403
          "Access denied. Insufficient permissions."
      ∧ (authorizeOwnerOrRoles ["KAPRODI", "DEKAN"] strangerReq Ctx.fresh).res.body
          ≠ (authorize ["KAPRODI", "DEKAN"] strangerReq Ctx.fresh).res.body :=
  ⟨rfl, by decide, by decide, by decide, by decide,
    non_owner_without_role_gets_403 ["KAPRODI", "DEKAN"] strangerReq
      ⟨["DOSEN"], JsVal.str "lec-1"⟩ (JsVal.str "lec-999") Ctx.fresh rfl (by decide)
      (by decide) (by decide) (by decide)⟩

/-- C6: when `req.user` is present and its roles neither contain ADMIN nor share an element
with the allowed roles, the role gate answers 403 with the body made of success false and the
message Access denied. Insufficient permissions. and does not call `next`. -/
theorem authorize_without_role_gets_403 (allowedRoles : List String) (req : Req) (user : User)
    (c : Ctx) (hu : req.user = ReqUser.obj user) (hadmin : "ADMIN" ∉ user.roles)
    (hshare : ∀ role ∈ allowedRoles, role ∉ user.roles) :
    Responded c (authorize allowedRoles req c) 403 "Access denied. Insufficient permissions."
      ∧ ¬ CalledNext c (authorize allowedRoles req c) := by
  have ha : JsArray.includes user.roles "ADMIN" = false := by
    rw [← Bool.not_eq_true, includes_iff]
    exact hadmin
  have hr : JsArray.some allowedRoles (fun role => JsArray.includes user.roles role) = false := by
    rw [← Bool.not_eq_true, some_includes_iff]
    rintro ⟨role, h1, h2⟩
    exact hshare role h1 h2
  rw [authorize_obj allowedRoles req user c hu, ha, hr]
  exact ⟨responded_send c 403 _, not_calledNext_send c 403 _⟩

theorem authorize_without_role_gets_403_witness :
    dosenReq.user = ReqUser.obj ⟨["DOSEN"], JsVal.undefined⟩
      ∧ "ADMIN" ∉ ["DOSEN"]
      ∧ (∀ role ∈ ["KAPRODI", "DEKAN"], role ∉ ["DOSEN"])
      ∧ Responded Ctx.fresh (authorize ["KAPRODI", "DEKAN"] dosenReq Ctx.fresh) 403
          "Access denied. Insufficient permissions."
      ∧ ¬ CalledNext Ctx.fresh (authorize ["KAPRODI", "DEKAN"] dosenReq Ctx.fresh) :=
  ⟨rfl, by decide, by decide,
    authorize_without_role_gets_403 ["KAPRODI", "DEKAN"] dosenReq ⟨["DOSEN"], JsVal.undefined⟩
      Ctx.fresh rfl (by decide) (by decide)⟩

/-- A null or absent lecturer id owns no target. -/
theorem isOwner_of_no_lecturer_id (user : User)
    (hnull : user.lecturerId = JsVal.null ∨ user.lecturerId = JsVal.undefined)
    (target : JsVal) : isOwner user target = false := by
  rw [← Bool.not_eq_true, isOwner_iff]
  rcases hnull with h | h <;> simp [h, JsVal.truthy]

/-- C7 fails on the code: an administrator without lecturer profile (the lecturer id attached
is null) who sends a request without body to GET /lecturers/:id/dashboard holds ADMIN, yet the
owner-or-role gate throws a TypeError and does not call `next`, so the gate does not call
`next` exactly when the roles contain ADMIN or share an allowed role. -/
theorem admin_without_profile_throws :
    adminNoProfileReq.user = ReqUser.obj ⟨["ADMIN"], JsVal.null⟩
      ∧ adminNoProfileReq.body = none
      ∧ ("ADMIN" ∈ ["ADMIN"] ∨ ∃ role ∈ dashboardRoles, role ∈ ["ADMIN"])
      ∧ authorizeOwnerOrRoles dashboardRoles adminNoProfileReq Ctx.fresh
          = Ctx.fresh.throw "TypeError"
      ∧ ¬ CalledNext Ctx.fresh
          (authorizeOwnerOrRoles dashboardRoles adminNoProfileReq Ctx.fresh) := by
  refine ⟨rfl, rfl, Or.inl (by decide), by decide, by decide⟩

/-- C8 fails on the code: a head of study programme who sends a request without body to
GET /lecturers/:id/dashboard passes the role gate built with the roles of that route, and the
owner-or-role gate built with the same roles throws a TypeError and does not call `next`. -/
theorem allowed_role_without_body_throws :
    kaprodiDashboardReq.user = ReqUser.obj ⟨["KAPRODI"], JsVal.str "lec-1"⟩
      ∧ kaprodiDashboardReq.params.get "id" = JsVal.str "lec-999"
      ∧ kaprodiDashboardReq.body = none
      ∧ CalledNext Ctx.fresh (authorize dashboardRoles kaprodiDashboardReq Ctx.fresh)
      ∧ authorizeOwnerOrRoles dashboardRoles kaprodiDashboardReq Ctx.fresh
          = Ctx.fresh.throw "TypeError"
      ∧ ¬ CalledNext Ctx.fresh
          (authorizeOwnerOrRoles dashboardRoles kaprodiDashboardReq Ctx.fresh) := by
  decide

/-- When the target can be read, a request that passes the role gate passes the owner-or-role
gate built with the same roles. -/
theorem role_gate_pass_implies_owner_gate_pass (allowedRoles : List String) (req : Req)
    (target : JsVal) (c : Ctx) (ht : targetLecturerId req = some target)
    (h : CalledNext c (authorize allowedRoles req c)) :
    CalledNext c (authorizeOwnerOrRoles allowedRoles req c) := by
  cases hu : req.user with
  | undefined =>
    exact absurd h (unauthenticated_denied allowedRoles req c (Or.inl hu))
  | null =>
    exact absurd h (unauthenticated_denied allowedRoles req c (Or.inr hu))
  | obj user =>
    rw [authorize_calledNext_iff allowedRoles req user c hu] at h
    rw [authorizeOwnerOrRoles_calledNext_iff allowedRoles req user c hu]
    rcases h with h | h
    · exact ⟨target, ht, Or.inl h⟩
    · exact ⟨target, ht, Or.inr (Or.inr h)⟩

/-- C9: when params.lecturerId, as the router sets it, is present, the target lecturer id of
the owner-or-role gate is params.lecturerId whatever the body holds, a body with a lecturerId
of its own included, and replacing the body by any other one, or by none, leaves the outcome of
the gate unchanged: two requests that differ only in body.lecturerId get the same decision. -/
theorem path_id_takes_precedence (allowedRoles : List String) (req : Req) (c : Ctx)
    (hr : routedParam (req.params.get "lecturerId") = true)
    (hp : req.params.get "lecturerId" ≠ JsVal.undefined) :
    targetLecturerId req = some (req.params.get "lecturerId")
      ∧ ∀ other : Option JsObj, authorizeOwnerOrRoles allowedRoles { req with body := other } c
          = authorizeOwnerOrRoles allowedRoles req c := by
  have htr := routed_truthy _ hr hp
  have ht : ∀ r : Req, r.params = req.params →
      targetLecturerId r = some (req.params.get "lecturerId") := by
    intro r hr2
    unfold targetLecturerId
    rw [hr2, if_pos htr]
  refine ⟨ht req rfl, ?_⟩
  intro other
  unfold authorizeOwnerOrRoles
  rw [ht req rfl, ht { req with body := other } rfl]

theorem path_id_takes_precedence_witness :
    routedParam (ownerReq.params.get "lecturerId") = true
      ∧ ownerReq.params.get "lecturerId" ≠ JsVal.undefined
      ∧ ownerReq.body = some (withLecturerId (JsVal.str "lec-456"))
      ∧ (withLecturerId (JsVal.str "lec-456")).get "lecturerId" ≠ JsVal.undefined
      ∧ targetLecturerId ownerReq = some (ownerReq.params.get "lecturerId")
      ∧ ∀ other : Option JsObj, authorizeOwnerOrRoles [] { ownerReq with body := other } Ctx.fresh
          = authorizeOwnerOrRoles [] ownerReq Ctx.fresh :=
  ⟨by decide, by decide, rfl, by decide,
    path_id_takes_precedence [] ownerReq Ctx.fresh (by decide) (by decide)⟩

/-- C10 fails on the code: with an empty list of allowed roles, an administrator who sends a
request without body on a route without lecturerId in its path holds ADMIN, yet the
owner-or-role gate throws a TypeError and does not call `next`; the role gate built with the
empty list calls `next` on the same request. -/
theorem empty_allowed_admin_throws :
    adminBodylessReq.user = ReqUser.obj ⟨["ADMIN"], JsVal.null⟩
      ∧ "ADMIN" ∈ ["ADMIN"]
      ∧ adminBodylessReq.params.get "lecturerId" = JsVal.undefined
      ∧ adminBodylessReq.body = none
      ∧ CalledNext Ctx.fresh (authorize [] adminBodylessReq Ctx.fresh)
      ∧ authorizeOwnerOrRoles [] adminBodylessReq Ctx.fresh = Ctx.fresh.throw "TypeError"
      ∧ ¬ CalledNext Ctx.fresh (authorizeOwnerOrRoles [] adminBodylessReq Ctx.fresh) := by
  decide

/-- With an empty list of allowed roles and a target that can be read, the owner-or-role gate
calls `next` exactly for an administrator and for the owner. -/
theorem empty_allowed_roles (req : Req) (user : User) (target : JsVal) (c : Ctx)
    (hu : req.user = ReqUser.obj user) (ht : targetLecturerId req = some target) :
    (CalledNext c (authorize [] req c) ↔ "ADMIN" ∈ user.roles)
      ∧ (CalledNext c (authorizeOwnerOrRoles [] req c)
          ↔ ("ADMIN" ∈ user.roles
              ∨ (user.lecturerId.truthy = true
                  ∧ user.lecturerId.strictEq target = true))) := by
  constructor
  · rw [authorize_calledNext_iff [] req user c hu]
    simp
  · rw [authorizeOwnerOrRoles_calledNext_iff [] req user c hu, ← isOwner_iff]
    constructor
    · rintro ⟨target2, h2, h3⟩
      have h4 : target2 = target := by
        rw [ht] at h2
        exact (Option.some.inj h2).symm
      rw [h4] at h3
      simpa using h3
    · intro h
      exact ⟨target, ht, by simpa using h⟩

/-! ## Exact comparison of role names -/

/-- C11: role names are compared by exact string equality in both gates.  When none of the role
strings of the user is exactly ADMIN or exactly an element of the allowed roles, the role gate
answers 403 and the owner-or-role gate calls `next` only through ownership, whatever other
strings (other role names, or spellings of ADMIN and of allowed roles in another letter case)
the roles hold. -/
theorem roles_compared_exactly (allowedRoles : List String) (req : Req) (user : User)
    (c : Ctx) (hu : req.user = ReqUser.obj user)
    (hadmin : ∀ role ∈ user.roles, role ≠ "ADMIN")
    (hallowed : ∀ role ∈ user.roles, ∀ allowed ∈ allowedRoles, role ≠ allowed) :
    Responded c (authorize allowedRoles req c) 403 "Access denied. Insufficient permissions."
      ∧ ¬ CalledNext c (authorize allowedRoles req c)
      ∧ (CalledNext c (authorizeOwnerOrRoles allowedRoles req c)
          ↔ ∃ target, targetLecturerId req = some target ∧ isOwner user target = true) := by
  have h1 : "ADMIN" ∉ user.roles := fun h => hadmin "ADMIN" h rfl
  have h2 : ¬ ∃ role ∈ allowedRoles, role ∈ user.roles := by
    rintro ⟨role, ha, hr⟩
    exact hallowed role hr role ha rfl
  have ha : JsArray.includes user.roles "ADMIN" = false := by
    rw [← Bool.not_eq_true, includes_iff]
    exact h1
  have hr : JsArray.some allowedRoles (fun role => JsArray.includes user.roles role) = false := by
    rw [← Bool.not_eq_true, some_includes_iff]
    exact h2
  refine ⟨?_, ?_, ?_⟩
  · rw [authorize_obj allowedRoles req user c hu, ha, hr]
    exact responded_send c 403 _
  · rw [authorize_obj allowedRoles req user c hu, ha, hr]
    exact not_calledNext_send c 403 _
  · rw [authorizeOwnerOrRoles_calledNext_iff allowedRoles req user c hu]
    constructor
    · rintro ⟨target, ht, h | h | h⟩
      · exact absurd h h1
      · exact ⟨target, ht, h⟩
      · exact absurd h h2
    · rintro ⟨target, ht, h⟩
      exact ⟨target, ht, Or.inr (Or.inl h)⟩

theorem roles_compared_exactly_witness :
    lowerCaseReq.user = ReqUser.obj ⟨["admin", "dosen", "Kaprodi", "LPPM", "LPM"], JsVal.null⟩
      ∧ (∀ role ∈ ["admin", "dosen", "Kaprodi", "LPPM", "LPM"], role ≠ "ADMIN")
      ∧ (∀ role ∈ ["admin", "dosen", "Kaprodi", "LPPM", "LPM"],
          ∀ allowed ∈ ["DOSEN", "KAPRODI", "DEKAN"], role ≠ allowed)
      ∧ Responded Ctx.fresh (authorize ["DOSEN", "KAPRODI", "DEKAN"] lowerCaseReq Ctx.fresh) 403
          "Access denied. Insufficient permissions."
      ∧ ¬ CalledNext Ctx.fresh (authorize ["DOSEN", "KAPRODI", "DEKAN"] lowerCaseReq Ctx.fresh)
      ∧ (CalledNext Ctx.fresh
            (authorizeOwnerOrRoles ["DOSEN", "KAPRODI", "DEKAN"] lowerCaseReq Ctx.fresh)
          ↔ ∃ target, targetLecturerId lowerCaseReq = some target
              ∧ isOwner ⟨["admin", "dosen", "Kaprodi", "LPPM", "LPM"], JsVal.null⟩ target
                = true) :=
  ⟨rfl, by decide, by decide,
    roles_compared_exactly ["DOSEN", "KAPRODI", "DEKAN"] lowerCaseReq
      ⟨["admin", "dosen", "Kaprodi", "LPPM", "LPM"], JsVal.null⟩ Ctx.fresh rfl (by decide)
      (by decide)⟩

/-! ## One outcome per request -/

theorem wroteOnce_send (c : Ctx) (code : Nat) (data : JsObj) : WroteOnce c (c.send code data) :=
  ⟨rfl, rfl, rfl, rfl⟩

theorem not_wroteOnce_next (c : Ctx) : ¬ WroteOnce c c.next := by
  intro h
  have hn := h.1
  simp [Ctx.next] at hn

theorem not_wroteOnce_throw (c : Ctx) (name : String) : ¬ WroteOnce c (c.throw name) := by
  intro h
  have hn := h.2.1
  simp [Ctx.throw] at hn

/-- The role gate returns the context after one call of `next` or after one response; the
owner-or-role gate does so too, or lets a TypeError escape. -/
theorem gate_next_or_send (allowedRoles : List String) (req : Req) (c : Ctx) :
    (authorize allowedRoles req c = c.next
        ∨ ∃ code data, authorize allowedRoles req c = c.send code data)
      ∧ (authorizeOwnerOrRoles allowedRoles req c = c.next
        ∨ (∃ code data, authorizeOwnerOrRoles allowedRoles req c = c.send code data)
        ∨ authorizeOwnerOrRoles allowedRoles req c = c.throw "TypeError") := by
  cases hu : req.user with
  | undefined =>
    constructor
    · right
      exact ⟨401, _, by unfold authorize; rw [hu]⟩
    · right
      left
      exact ⟨401, _, by unfold authorizeOwnerOrRoles; rw [hu]⟩
  | null =>
    constructor
    · right
      exact ⟨401, _, by unfold authorize; rw [hu]⟩
    · right
      left
      exact ⟨401, _, by unfold authorizeOwnerOrRoles; rw [hu]⟩
  | obj user =>
    constructor
    · rw [authorize_obj allowedRoles req user c hu]
      split
      · exact Or.inl rfl
      · exact Or.inr ⟨403, _, rfl⟩
    · cases ht : targetLecturerId req with
      | none =>
        exact Or.inr (Or.inr (authorizeOwnerOrRoles_throw allowedRoles req user c hu ht))
      | some target =>
        rw [authorizeOwnerOrRoles_obj allowedRoles req user target c hu ht]
        split
        · exact Or.inl rfl
        · exact Or.inr (Or.inl ⟨403, _, rfl⟩)

/-- C12 fails on the code: on a request without body to GET /lecturers/:id/dashboard the
owner-or-role gate does neither of the two things for a lecturer: it throws a TypeError, so it
does not call `next`, and it writes no response (status and body stay unset, `json` is not
called). -/
theorem gate_does_neither_without_body :
    dosenDashboardReq.user = ReqUser.obj ⟨["DOSEN"], JsVal.str "lec-1"⟩
      ∧ dosenDashboardReq.body = none
      ∧ authorizeOwnerOrRoles dashboardRoles dosenDashboardReq Ctx.fresh
          = Ctx.fresh.throw "TypeError"
      ∧ ¬ CalledNext Ctx.fresh (authorizeOwnerOrRoles dashboardRoles dosenDashboardReq Ctx.fresh)
      ∧ ¬ WroteOnce Ctx.fresh (authorizeOwnerOrRoles dashboardRoles dosenDashboardReq Ctx.fresh)
      ∧ (authorizeOwnerOrRoles dashboardRoles dosenDashboardReq Ctx.fresh).nextCalls = 0
      ∧ (authorizeOwnerOrRoles dashboardRoles dosenDashboardReq Ctx.fresh).res.statusCode = none
      ∧ (authorizeOwnerOrRoles dashboardRoles dosenDashboardReq Ctx.fresh).res.body = none
      ∧ (authorizeOwnerOrRoles dashboardRoles dosenDashboardReq Ctx.fresh).res.jsonCalls = 0 := by
  decide

/-- The role gate does exactly one of two things, and the owner-or-role gate does so whenever
no exception leaves it: one call of `next` and no response, or one response and no call of
`next`. -/
theorem gate_next_xor_response (allowedRoles : List String) (req : Req) (c : Ctx) :
    ((CalledNext c (authorize allowedRoles req c)
          ∧ ¬ WroteOnce c (authorize allowedRoles req c))
        ∨ (WroteOnce c (authorize allowedRoles req c)
          ∧ ¬ CalledNext c (authorize allowedRoles req c)))
      ∧ ((CalledNext c (authorizeOwnerOrRoles allowedRoles req c)
          ∧ ¬ WroteOnce c (authorizeOwnerOrRoles allowedRoles req c))
        ∨ (WroteOnce c (authorizeOwnerOrRoles allowedRoles req c)
          ∧ ¬ CalledNext c (authorizeOwnerOrRoles allowedRoles req c))
        ∨ authorizeOwnerOrRoles allowedRoles req c = c.throw "TypeError") := by
  have key : ∀ out : Ctx, (out = c.next ∨ ∃ code data, out = c.send code data) →
      (CalledNext c out ∧ ¬ WroteOnce c out) ∨ (WroteOnce c out ∧ ¬ CalledNext c out) := by
    intro out h
    rcases h with h | ⟨code, data, h⟩
    · rw [h]
      exact Or.inl ⟨calledNext_next c, not_wroteOnce_next c⟩
    · rw [h]
      exact Or.inr ⟨wroteOnce_send c code data, not_calledNext_send c code data⟩
  have hg := gate_next_or_send allowedRoles req c
  refine ⟨key _ hg.1, ?_⟩
  rcases hg.2 with h | h | h
  · rcases key _ (Or.inl h) with h2 | h2
    · exact Or.inl h2
    · exact Or.inr (Or.inl h2)
  · rcases key _ (Or.inr h) with h2 | h2
    · exact Or.inl h2
    · exact Or.inr (Or.inl h2)
  · exact Or.inr (Or.inr h)

/-! ## Relations between lists of allowed roles -/

/-- C27: both gates are monotone in the allowed roles.  When every element of A is an element
of B, a request on which the role gate with A calls `next` is one on which the role gate with
B calls `next`, and likewise for the owner-or-role gate. -/
theorem gates_monotone (rolesA rolesB : List String) (req : Req) (c : Ctx)
    (hsub : ∀ role ∈ rolesA, role ∈ rolesB) :
    (CalledNext c (authorize rolesA req c) → CalledNext c (authorize rolesB req c))
      ∧ (CalledNext c (authorizeOwnerOrRoles rolesA req c) →
          CalledNext c (authorizeOwnerOrRoles rolesB req c)) := by
  cases hu : req.user with
  | undefined =>
    constructor
    · intro h
      exact absurd h (unauthenticated_denied rolesA req c (Or.inl hu))
    · intro h
      have h1 : authorizeOwnerOrRoles rolesA req c
          = c.send 401 (failure "Authentication required") := by
        unfold authorizeOwnerOrRoles
        rw [hu]
      rw [h1] at h
      exact absurd h (not_calledNext_send c 401 _)
  | null =>
    constructor
    · intro h
      exact absurd h (unauthenticated_denied rolesA req c (Or.inr hu))
    · intro h
      have h1 : authorizeOwnerOrRoles rolesA req c
          = c.send 401 (failure "Authentication required") := by
        unfold authorizeOwnerOrRoles
        rw [hu]
      rw [h1] at h
      exact absurd h (not_calledNext_send c 401 _)
  | obj user =>
    have hshare : (∃ role ∈ rolesA, role ∈ user.roles) → ∃ role ∈ rolesB, role ∈ user.roles := by
      rintro ⟨role, ha, hr⟩
      exact ⟨role, hsub role ha, hr⟩
    constructor
    · rw [authorize_calledNext_iff rolesA req user c hu,
        authorize_calledNext_iff rolesB req user c hu]
      rintro (h | h)
      · exact Or.inl h
      · exact Or.inr (hshare h)
    · rw [authorizeOwnerOrRoles_calledNext_iff rolesA req user c hu,
        authorizeOwnerOrRoles_calledNext_iff rolesB req user c hu]
      rintro ⟨target, ht, h | h | h⟩
      · exact ⟨target, ht, Or.inl h⟩
      · exact ⟨target, ht, Or.inr (Or.inl h)⟩
      · exact ⟨target, ht, Or.inr (Or.inr (hshare h))⟩

theorem gates_monotone_witness :
    (∀ role ∈ ["KAPRODI"], role ∈ ["DEKAN", "KAPRODI"])
      ∧ CalledNext Ctx.fresh (authorize ["KAPRODI"] kaprodiReq Ctx.fresh)
      ∧ CalledNext Ctx.fresh (authorize ["DEKAN", "KAPRODI"] kaprodiReq Ctx.fresh)
      ∧ CalledNext Ctx.fresh (authorizeOwnerOrRoles ["KAPRODI"] kaprodiReq Ctx.fresh)
      ∧ CalledNext Ctx.fresh (authorizeOwnerOrRoles ["DEKAN", "KAPRODI"] kaprodiReq Ctx.fresh) :=
  ⟨by decide, by decide,
    (gates_monotone ["KAPRODI"] ["DEKAN", "KAPRODI"] kaprodiReq Ctx.fresh (by decide)).1
      (by decide),
    by decide,
    (gates_monotone ["KAPRODI"] ["DEKAN", "KAPRODI"] kaprodiReq Ctx.fresh (by decide)).2
      (by decide)⟩

theorem some_cons_admin (allowedRoles userRoles : List String)
    (h : JsArray.includes userRoles "ADMIN" = false) :
    JsArray.some ("ADMIN" :: allowedRoles) (fun role => JsArray.includes userRoles role)
      = JsArray.some allowedRoles (fun role => JsArray.includes userRoles role) := by
  simp [JsArray.some, h]

/-- C28: listing ADMIN among the allowed roles is redundant.  For every request and every list
R, each gate built with ADMIN followed by R returns the same outcome (the same call of `next`,
or the same status and body) as the gate built with R alone; in particular the role gate with
ADMIN and KAPRODI behaves as the role gate with KAPRODI. -/
theorem admin_in_allowed_roles_redundant (allowedRoles : List String) (req : Req) (c : Ctx) :
    authorize ("ADMIN" :: allowedRoles) req c = authorize allowedRoles req c
      ∧ authorizeOwnerOrRoles ("ADMIN" :: allowedRoles) req c
          = authorizeOwnerOrRoles allowedRoles req c
      ∧ authorize ["ADMIN", "KAPRODI"] req c = authorize ["KAPRODI"] req c := by
  have key : ∀ roles : List String,
      authorize ("ADMIN" :: roles) req c = authorize roles req c := by
    intro roles
    cases hu : req.user with
    | undefined => unfold authorize; rw [hu]
    | null => unfold authorize; rw [hu]
    | obj user =>
      rw [authorize_obj _ req user c hu, authorize_obj _ req user c hu]
      by_cases ha : JsArray.includes user.roles "ADMIN" = true
      · simp [ha]
      · rw [Bool.not_eq_true] at ha
        rw [some_cons_admin roles user.roles ha]
  refine ⟨key allowedRoles, ?_, key ["KAPRODI"]⟩
  cases hu : req.user with
  | undefined => unfold authorizeOwnerOrRoles; rw [hu]
  | null => unfold authorizeOwnerOrRoles; rw [hu]
  | obj user =>
    cases ht : targetLecturerId req with
    | none =>
      rw [authorizeOwnerOrRoles_throw _ req user c hu ht,
        authorizeOwnerOrRoles_throw _ req user c hu ht]
    | some target =>
      rw [authorizeOwnerOrRoles_obj _ req user target c hu ht,
        authorizeOwnerOrRoles_obj _ req user target c hu ht]
      by_cases ha : JsArray.includes user.roles "ADMIN" = true
      · simp [ha]
      · rw [Bool.not_eq_true] at ha
        rw [some_cons_admin allowedRoles user.roles ha]

/-! ## The dashboard route -/

/-- On the dashboard route the gate finds no lecturerId among the path parameters, so its
target is whatever the body holds under lecturerId. -/
theorem dashboard_target (user : User) (pathId : String) (body : JsObj) :
    targetLecturerId (dashboardReq user pathId body) = some (body.get "lecturerId") := by
  have hk : ("lecturerId" == "id") = false := by decide
  simp [targetLecturerId, dashboardReq, JsObj.get, List.lookup, hk, JsVal.truthy]

/-- C24 fails on the code: on GET /lecturers/:id/dashboard the owner lec-1 asking for the
dashboard of lec-1 is answered 403, and the same user asking for the dashboard of lec-999 with
the own lecturer id in the body passes the gate.  The gate reads `req.params.lecturerId`, which
this route, whose parameter is named id, never sets. -/
theorem dashboard_gate_ignores_path_id :
    Responded Ctx.fresh
        (authorizeOwnerOrRoles dashboardRoles
          (dashboardReq ⟨["DOSEN"], JsVal.str "lec-1"⟩ "lec-1" emptyObj) Ctx.fresh)
        403 "Access denied. You can only access your own data."
      ∧ ¬ CalledNext Ctx.fresh
        (authorizeOwnerOrRoles dashboardRoles
          (dashboardReq ⟨["DOSEN"], JsVal.str "lec-1"⟩ "lec-1" emptyObj) Ctx.fresh)
      ∧ CalledNext Ctx.fresh
        (authorizeOwnerOrRoles dashboardRoles
          (dashboardReq ⟨["DOSEN"], JsVal.str "lec-1"⟩ "lec-999"
            (withLecturerId (JsVal.str "lec-1"))) Ctx.fresh) := by
  decide

end Authorize

namespace Pagination

/-! ## Facts about rounding -/

theorem pow2_eq (k : Nat) : pow2 k = 2 ^ k := by
  unfold pow2
  rw [Nat.shiftLeft_eq, Nat.one_mul]

theorem pow2_pos (k : Nat) : 0 < pow2 k := by
  rw [pow2_eq]
  exact Nat.two_pow_pos k

theorem log2Fuel_spec (fuel : Nat) : ∀ n : Nat, n ≤ fuel → 0 < n →
    2 ^ log2Fuel fuel n ≤ n ∧ n < 2 ^ (log2Fuel fuel n + 1) := by
  induction fuel with
  | zero =>
    intro n h1 h2
    omega
  | succ fuel ih =>
    intro n h1 h2
    unfold log2Fuel
    by_cases hn : n < 2
    · rw [if_pos hn]
      constructor
      · simpa using h2
      · simpa using hn
    · rw [if_neg hn]
      have h3 := ih (n / 2) (by omega) (by omega)
      constructor
      · rw [Nat.pow_succ]
        omega
      · rw [Nat.pow_succ]
        omega

/-- The binary logarithm brackets a positive number between two powers of two. -/
theorem log2_spec (n : Nat) (h : 0 < n) : 2 ^ log2 n ≤ n ∧ n < 2 ^ (log2 n + 1) :=
  log2Fuel_spec n n (le_refl n) h

theorem log2_lt_of_lt_pow (n k : Nat) (h : 0 < n) (hk : n < 2 ^ k) : log2 n < k := by
  by_contra hc
  have h1 := (log2_spec n h).1
  have h2 : 2 ^ k ≤ 2 ^ log2 n := Nat.pow_le_pow_right (by decide) (by omega)
  omega

/-- The rounded quotient is within half a unit of the exact one. -/
theorem roundHalfEven_near (n d : Nat) (hd : 0 < d) :
    2 * (roundHalfEven n d * d) ≤ 2 * n + d ∧ 2 * n ≤ 2 * (roundHalfEven n d * d) + d := by
  have hdiv : n / d * d + n % d = n := Nat.div_add_mod' n d
  have hmod : n % d < d := Nat.mod_lt n hd
  have hsucc : (n / d + 1) * d = n / d * d + d := by ring
  unfold roundHalfEven
  simp only
  split
  · omega
  · split
    · rw [hsucc]
      omega
    · split
      · omega
      · rw [hsucc]
        omega

/-- An integer of magnitude up to 2^53 is a double. -/
theorem roundNat_exact (n : Nat) (h : n ≤ 2 ^ 53) : roundNat n = some n := by
  by_cases h1 : n < 2 ^ 53
  · unfold roundNat
    rw [pow2_eq, if_pos h1]
  · have h2 : n = 2 ^ 53 := by omega
    rw [h2]
    decide

theorem ofInt_exact (n : Int) (h : n.natAbs ≤ 2 ^ 53) : JsNum.ofInt n = JsNum.fin n := by
  unfold JsNum.ofInt
  rw [roundNat_exact n.natAbs h]
  simp only
  congr 1
  split <;> omega

/-- Rounding keeps the sign: a non-negative integer rounds to a non-negative one, or to the
positive infinity. -/
theorem ofInt_nonneg (n : Int) (h : 0 ≤ n) :
    JsNum.ofInt n = JsNum.posInf ∨ ∃ m : Nat, JsNum.ofInt n = JsNum.fin (m : Int) := by
  unfold JsNum.ofInt
  have hn : ¬ n < 0 := by omega
  cases roundNat n.natAbs with
  | none =>
    left
    simp [hn]
  | some m =>
    right
    exact ⟨m, by simp [hn]⟩

/-! ## Facts about the ceiling of a quotient -/

theorem ceilQuotient_le_iff (a b n : Int) (hb : 0 < b) : ceilQuotient a b ≤ n ↔ a ≤ n * b := by
  unfold ceilQuotient
  rw [Int.fdiv_eq_ediv _ (Int.le_of_lt hb)]
  constructor
  · intro h
    have h1 : -n ≤ -a / b := by omega
    rw [Int.le_ediv_iff_mul_le hb] at h1
    have h2 : -n * b = -(n * b) := by ring
    omega
  · intro h
    have h1 : -n ≤ -a / b := by
      rw [Int.le_ediv_iff_mul_le hb]
      have h2 : -n * b = -(n * b) := by ring
      omega
    omega

/-- For a positive divisor the integer formula is the ceiling of the rational quotient. -/
theorem ceilQuotient_eq_ceil (a b : Int) (hb : 0 < b) :
    ceilQuotient a b = ⌈(a : ℚ) / (b : ℚ)⌉ := by
  have hbq : (0 : ℚ) < (b : ℚ) := by exact_mod_cast hb
  apply le_antisymm
  · rw [ceilQuotient_le_iff a b _ hb]
    have h1 : (a : ℚ) / (b : ℚ) ≤ (⌈(a : ℚ) / (b : ℚ)⌉ : ℚ) := Int.le_ceil _
    have h2 : (a : ℚ) ≤ (⌈(a : ℚ) / (b : ℚ)⌉ : ℚ) * (b : ℚ) := by
      rwa [div_le_iff₀ hbq] at h1
    exact_mod_cast h2
  · rw [Int.ceil_le, div_le_iff₀ hbq]
    have h3 : a ≤ ceilQuotient a b * b := (ceilQuotient_le_iff a b _ hb).1 (le_refl _)
    exact_mod_cast h3

theorem ceilQuotient_nonneg (a b : Int) (ha : 0 ≤ a) (hb : 0 < b) : 0 ≤ ceilQuotient a b := by
  by_contra hneg
  have h1 : ceilQuotient a b ≤ -1 := by omega
  rw [ceilQuotient_le_iff a b (-1) hb] at h1
  omega

theorem lt_ceilQuotient_iff (a b n : Int) (hb : 0 < b) : n < ceilQuotient a b ↔ n * b < a := by
  have h := ceilQuotient_le_iff a b n hb
  constructor
  · intro h1
    by_contra h2
    exact absurd (h.2 (by omega)) (by omega)
  · intro h1
    by_contra h2
    exact absurd (h.1 (by omega)) (by omega)

/-- Below 2^53 the quotient keeps enough bits: `Math.ceil(a / b)` is the least number of
times `b` covers `a`. -/
theorem ceilQuot_least (a b : Nat) (ha : 0 < a) (ha53 : a < 2 ^ 53) (hb : 0 < b) :
    a ≤ ceilQuot a b * b ∧ ∀ n : Nat, a ≤ n * b → ceilQuot a b ≤ n := by
  have hla : log2 a < 53 := log2_lt_of_lt_pow a 53 ha ha53
  have hk : 52 + log2 b ≤ quotientBits a b := by
    unfold quotientBits
    omega
  have hbranch : log2 a ≤ quotientBits a b := by omega
  have hS : 0 < pow2 (quotientBits a b - log2 a) := pow2_pos _
  have hb2 : b < 2 * pow2 (quotientBits a b - log2 a) := by
    have h1 := (log2_spec b hb).2
    have h2 : 2 ^ (log2 b + 1) ≤ 2 ^ (quotientBits a b - log2 a + 1) :=
      Nat.pow_le_pow_right (by decide) (by omega)
    rw [pow2_eq]
    rw [Nat.pow_succ] at h2
    omega
  have hq : ceilQuot a b
      = (roundHalfEven (a * pow2 (quotientBits a b - log2 a)) b
          + pow2 (quotientBits a b - log2 a) - 1) / pow2 (quotientBits a b - log2 a) := by
    unfold ceilQuot
    simp only
    rw [if_pos hbranch]
  generalize pow2 (quotientBits a b - log2 a) = S at hS hb2 hq
  have hnear := roundHalfEven_near (a * S) b hb
  generalize roundHalfEven (a * S) b = m at hnear hq
  rw [hq]
  have hdm : (m + S - 1) / S * S + (m + S - 1) % S = m + S - 1 := Nat.div_add_mod' _ _
  have hmod : (m + S - 1) % S < S := Nat.mod_lt _ hS
  constructor
  · by_contra hc
    have h1 : (m + S - 1) / S * b + 1 ≤ a := by omega
    have h2 : ((m + S - 1) / S * b + 1) * S ≤ a * S := Nat.mul_le_mul_right S h1
    have h3 : ((m + S - 1) / S * b + 1) * S = (m + S - 1) / S * S * b + S := by ring
    have h4 : m ≤ (m + S - 1) / S * S := by omega
    have h5 : m * b ≤ (m + S - 1) / S * S * b := Nat.mul_le_mul_right b h4
    omega
  · intro n hn
    have h1 : a * S ≤ n * b * S := Nat.mul_le_mul_right S hn
    have h2 : m ≤ n * S := by
      by_contra hc
      have h3 : n * S + 1 ≤ m := by omega
      have h4 : (n * S + 1) * b ≤ m * b := Nat.mul_le_mul_right b h3
      have h5 : (n * S + 1) * b = n * b * S + b := by ring
      omega
    have h6 : (m + S - 1) / S < n + 1 := by
      rw [Nat.div_lt_iff_lt_mul hS]
      have h7 : (n + 1) * S = n * S + S := by ring
      omega
    omega

/-- Below 2^53 `Math.ceil(a / b)` is the exact ceiling of the quotient. -/
theorem ceilQuot_eq_ceilQuotient (a b : Nat) (ha : 0 < a) (ha53 : a < 2 ^ 53) (hb : 0 < b) :
    ((ceilQuot a b : Nat) : Int) = ceilQuotient (a : Int) (b : Int) := by
  have hbi : (0 : Int) < (b : Int) := by exact_mod_cast hb
  have hl := ceilQuot_least a b ha ha53 hb
  apply le_antisymm
  · have h0 := ceilQuotient_nonneg (a : Int) (b : Int) (by omega) hbi
    have h1 : (a : Int) ≤ ceilQuotient (a : Int) (b : Int) * (b : Int) :=
      (ceilQuotient_le_iff _ _ _ hbi).1 (le_refl _)
    have h2 : a ≤ (ceilQuotient (a : Int) (b : Int)).toNat * b := by
      have h3 : ((ceilQuotient (a : Int) (b : Int)).toNat : Int)
          = ceilQuotient (a : Int) (b : Int) := Int.toNat_of_nonneg h0
      have h4 : (a : Int) ≤ (((ceilQuotient (a : Int) (b : Int)).toNat * b : Nat) : Int) := by
        push_cast
        rw [h3]
        exact h1
      exact_mod_cast h4
    have h5 := hl.2 _ h2
    omega
  · rw [ceilQuotient_le_iff _ _ _ hbi]
    exact_mod_cast hl.1

/-- For a total of at least 0 below 2^53 and a limit of at least 1 the code computes the exact
ceiling of total / limit. -/
theorem ceilDiv_exact (total limit : Int) (ht : 0 ≤ total) (htb : total < 2 ^ 53)
    (hl : 1 ≤ limit) :
    ceilDiv (JsNum.fin total) (JsNum.fin limit) = JsNum.fin (ceilQuotient total limit) := by
  have hl0 : limit ≠ 0 := by omega
  have hlpos : (0 : Int) < limit := by omega
  unfold ceilDiv
  simp only [hl0, if_false]
  by_cases h0 : total = 0
  · rw [if_pos h0, h0]
    congr 1
    apply le_antisymm
    · have h1 := ceilQuotient_nonneg 0 limit (le_refl 0) hlpos
      exact h1
    · rw [ceilQuotient_le_iff 0 limit 0 hlpos]
      simp
  · have htpos : (0 : Int) < total := by omega
    rw [if_neg h0]
    simp only [htpos, hlpos, decide_True, if_true]
    congr 1
    have ha : (total.natAbs : Int) = total := Int.natAbs_of_nonneg ht
    have hb : (limit.natAbs : Int) = limit := Int.natAbs_of_nonneg (by omega)
    have h1 := ceilQuot_eq_ceilQuotient total.natAbs limit.natAbs (by omega) (by
      have h2 : (total.natAbs : Int) < 2 ^ 53 := by omega
      exact_mod_cast h2) (by omega)
    rw [ha, hb] at h1
    exact h1

/-- For a total of at least 0 and a limit of at least 1 the code computes a natural number. -/
theorem ceilDiv_natural (total limit : Int) (ht : 0 ≤ total) (hl : 1 ≤ limit) :
    ∃ n : Nat, ceilDiv (JsNum.fin total) (JsNum.fin limit) = JsNum.fin (n : Int) := by
  have hl0 : limit ≠ 0 := by omega
  have hlpos : (0 : Int) < limit := by omega
  unfold ceilDiv
  simp only [hl0, if_false]
  by_cases h0 : total = 0
  · exact ⟨0, by rw [if_pos h0]; rfl⟩
  · have htpos : (0 : Int) < total := by omega
    rw [if_neg h0]
    simp only [htpos, hlpos, decide_True, if_true]
    exact ⟨_, rfl⟩

/-- Whatever the finite total, a limit that is neither `NaN` nor 0 gives an integer. -/
theorem ceilDiv_integer (total : Int) (limit : JsNum) (hn : limit ≠ JsNum.nan)
    (hz : limit ≠ JsNum.fin 0) :
    ∃ pages : Int, ceilDiv (JsNum.fin total) limit = JsNum.fin pages := by
  cases limit with
  | nan => exact absurd rfl hn
  | posInf => exact ⟨0, rfl⟩
  | negInf => exact ⟨0, rfl⟩
  | fin l =>
    have hl0 : l ≠ 0 := by
      intro h
      rw [h] at hz
      exact hz rfl
    unfold ceilDiv
    simp only [hl0, if_false]
    split
    · exact ⟨_, rfl⟩
    · split
      · exact ⟨_, rfl⟩
      · exact ⟨_, rfl⟩

/-! ## Facts about `parseInt` -/

theorem isRadixDigit_ten (c : Char) : isRadixDigit 10 c = isDecimalDigit c := by
  unfold isRadixDigit digitValue isDecimalDigit
  by_cases h1 : 48 ≤ c.toNat ∧ c.toNat ≤ 57
  · have h2 : c.toNat - 48 < 10 := by omega
    simp [h1, h2]
  · by_cases h3 : 97 ≤ c.toNat ∧ c.toNat ≤ 122
    · rw [if_neg h1, if_pos h3]
      have h4 : ¬ (c.toNat - 97 + 10 < 10) := by omega
      simp only [h4, decide_False]
      symm
      rw [Bool.and_eq_false_iff]
      simp only [decide_eq_false_iff_not]
      omega
    · by_cases h5 : 65 ≤ c.toNat ∧ c.toNat ≤ 90
      · rw [if_neg h1, if_neg h3, if_pos h5]
        have h6 : ¬ (c.toNat - 65 + 10 < 10) := by omega
        simp only [h6, decide_False]
        symm
        rw [Bool.and_eq_false_iff]
        simp only [decide_eq_false_iff_not]
        omega
      · rw [if_neg h1, if_neg h3, if_neg h5]
        symm
        rw [Bool.and_eq_false_iff]
        simp only [decide_eq_false_iff_not]
        omega

theorem isDecimalDigit_iff (c : Char) :
    isDecimalDigit c = true ↔ 48 ≤ c.toNat ∧ c.toNat ≤ 57 := by
  simp [isDecimalDigit]

/-- A decimal digit is neither white space, nor a sign, nor the letter x. -/
theorem isDecimalDigit_plain (c : Char) (h : isDecimalDigit c = true) :
    isStrWhiteSpace c = false ∧ c ≠ '-' ∧ c ≠ '+' ∧ c ≠ 'x' ∧ c ≠ 'X' := by
  rw [isDecimalDigit_iff] at h
  refine ⟨?_, ?_, ?_, ?_, ?_⟩
  · unfold isStrWhiteSpace
    rw [Bool.or_eq_false_iff]
    constructor
    · rw [← Bool.not_eq_true]
      intro hmem
      simp at hmem
      omega
    · rw [Bool.and_eq_false_iff]
      simp only [decide_eq_false_iff_not]
      omega
  all_goals
    intro hc
    rw [hc] at h
    revert h
    decide

theorem stripSign_sign (l : List Char) : (stripSign l).1 = 1 ∨ (stripSign l).1 = -1 := by
  unfold stripSign
  cases l with
  | nil => exact Or.inl rfl
  | cons c t =>
    by_cases h1 : c = '-'
    · simp [h1]
    · by_cases h2 : c = '+'
      · simp [h1, h2]
      · simp [h1, h2]

/-- On a non-empty sequence of decimal digits `parseInt` reads the integer they write. -/
theorem signedMathInt_digits (s : String) (hne : s.data ≠ [])
    (hall : ∀ c ∈ s.data, isDecimalDigit c = true) :
    signedMathInt s = some (mathInt 10 s.data : Int) := by
  cases hs : s.data with
  | nil => exact absurd hs hne
  | cons c t =>
    rw [hs] at hall
    have hc := isDecimalDigit_plain c (hall c (List.mem_cons_self c t))
    have h1 : (c :: t).dropWhile isStrWhiteSpace = c :: t := by
      simp [List.dropWhile, hc.1]
    have h2 : stripSign (c :: t) = (1, c :: t) := by
      simp [stripSign, hc.2.1, hc.2.2.1]
    have h3 : stripHex (c :: t) = (10, c :: t) := by
      cases t with
      | nil => rfl
      | cons d r =>
        have hd := isDecimalDigit_plain d
          (hall d (List.mem_cons_of_mem c (List.mem_cons_self d r)))
        simp [stripHex, hd.2.2.2.1, hd.2.2.2.2]
    have h4 : (c :: t).takeWhile (isRadixDigit 10) = c :: t := by
      rw [List.takeWhile_eq_self_iff]
      intro x hx
      rw [isRadixDigit_ten]
      exact hall x hx
    unfold signedMathInt
    simp only [hs, h1, h2, h3, h4]
    simp

/-- Without a leading decimal digit the radix step keeps radix 10 and no digit follows. -/
theorem takeWhile_stripHex_nil (l : List Char)
    (h : ∀ c t, l = c :: t → isDecimalDigit c = false) :
    (stripHex l).2.takeWhile (isRadixDigit (stripHex l).1) = [] := by
  cases l with
  | nil => rfl
  | cons c t =>
    have hc : isDecimalDigit c = false := h c t rfl
    have h0 : c ≠ '0' := by
      intro h0
      rw [h0] at hc
      revert hc
      decide
    have h3 : stripHex (c :: t) = (10, c :: t) := by
      cases t with
      | nil => rfl
      | cons d r => simp [stripHex, h0]
    rw [h3]
    simp [List.takeWhile, isRadixDigit_ten, hc]

/-- On a string that does not open with a decimal integer `parseInt` finds no digit. -/
theorem signedMathInt_none (s : String) (h : startsWithDigit s = false) :
    signedMathInt s = none := by
  unfold startsWithDigit at h
  have hk := takeWhile_stripHex_nil (stripSign (s.data.dropWhile isStrWhiteSpace)).2 (by
    intro c t hl
    rw [hl] at h
    exact h)
  unfold signedMathInt
  simp only [hk]
  rfl

/-- On a string that does not open with a minus sign `parseInt` reads no negative integer. -/
theorem signedMathInt_nonneg (s : String) (h : startsWithMinus s = false) (v : Int)
    (hv : signedMathInt s = some v) : 0 ≤ v := by
  unfold startsWithMinus at h
  unfold signedMathInt at hv
  have hsign : (stripSign (s.data.dropWhile isStrWhiteSpace)).1 = 1 := by
    cases hl : s.data.dropWhile isStrWhiteSpace with
    | nil => rfl
    | cons c t =>
      rw [hl] at h
      have hc : c ≠ '-' := by simpa using h
      by_cases h2 : c = '+'
      · simp [stripSign, hc, h2]
      · simp [stripSign, hc, h2]
  simp only [hsign] at hv
  split at hv
  · exact absurd hv (by simp)
  · have hv2 := Option.some.inj hv
    rw [← hv2]
    simp

/-! ## Decimal numerals -/

theorem digitChar_decimal (d : Nat) (hd : d < 10) :
    isDecimalDigit (Nat.digitChar d) = true ∧ digitValue (Nat.digitChar d) = some d := by
  interval_cases d <;> decide

theorem toDigitsCore_decimal (fuel : Nat) : ∀ (n : Nat) (ds : List Char),
    (∀ c ∈ ds, isDecimalDigit c = true) →
    ∀ c ∈ Nat.toDigitsCore 10 fuel n ds, isDecimalDigit c = true := by
  induction fuel with
  | zero =>
    intro n ds hds c hc
    exact hds c hc
  | succ fuel ih =>
    intro n ds hds c hc
    have hd : ∀ x ∈ Nat.digitChar (n % 10) :: ds, isDecimalDigit x = true := by
      intro x hx
      rcases List.mem_cons.1 hx with hx | hx
      · rw [hx]
        exact (digitChar_decimal (n % 10) (Nat.mod_lt n (by decide))).1
      · exact hds x hx
    unfold Nat.toDigitsCore at hc
    by_cases h0 : n / 10 = 0
    · simp only [h0, if_true] at hc
      exact hd c hc
    · simp only [h0, if_false] at hc
      exact ih (n / 10) _ hd c hc

theorem toDigitsCore_ne_nil_of_ne_nil (fuel : Nat) : ∀ (n : Nat) (ds : List Char),
    ds ≠ [] → Nat.toDigitsCore 10 fuel n ds ≠ [] := by
  induction fuel with
  | zero =>
    intro n ds hds
    exact hds
  | succ fuel ih =>
    intro n ds _
    unfold Nat.toDigitsCore
    by_cases h0 : n / 10 = 0
    · simp [h0]
    · simp only [h0, if_false]
      exact ih (n / 10) _ (by simp)

theorem toDigits_ne_nil (n : Nat) : Nat.toDigits 10 n ≠ [] := by
  unfold Nat.toDigits Nat.toDigitsCore
  by_cases h0 : n / 10 = 0
  · simp [h0]
  · simp only [h0, if_false]
    exact toDigitsCore_ne_nil_of_ne_nil n (n / 10) _ (by simp)

theorem foldl_toDigitsCore (fuel : Nat) : ∀ (n : Nat) (ds : List Char), n < fuel →
    (Nat.toDigitsCore 10 fuel n ds).foldl (fun acc c => acc * 10 + (digitValue c).getD 0) 0
      = ds.foldl (fun acc c => acc * 10 + (digitValue c).getD 0) n := by
  induction fuel with
  | zero =>
    intro n ds hn
    exact absurd hn (Nat.not_lt_zero n)
  | succ fuel ih =>
    intro n ds hn
    have hv := (digitChar_decimal (n % 10) (Nat.mod_lt n (by decide))).2
    unfold Nat.toDigitsCore
    by_cases h0 : n / 10 = 0
    · simp only [h0, if_true, List.foldl_cons, hv, Option.getD_some]
      have hn2 : n % 10 = n := by omega
      rw [hn2]
      simp
    · simp only [h0, if_false]
      rw [ih (n / 10) _ (by omega)]
      simp only [List.foldl_cons, hv, Option.getD_some]
      have hn2 : n / 10 * 10 + n % 10 = n := by omega
      rw [hn2]

/-- The decimal numeral of a natural number reads back as that number. -/
theorem signedMathInt_repr (n : Nat) : signedMathInt (Nat.repr n) = some (n : Int) := by
  have hdata : (Nat.repr n).data = Nat.toDigits 10 n := rfl
  have hall : ∀ c ∈ (Nat.repr n).data, isDecimalDigit c = true := by
    rw [hdata]
    exact toDigitsCore_decimal (n + 1) n [] (by simp)
  have hne : (Nat.repr n).data ≠ [] := by
    rw [hdata]
    exact toDigits_ne_nil n
  rw [signedMathInt_digits (Nat.repr n) hne hall, hdata]
  have hval : mathInt 10 (Nat.toDigits 10 n) = n := by
    unfold mathInt Nat.toDigits
    rw [foldl_toDigitsCore (n + 1) n [] (Nat.lt_succ_self n)]
    rfl
  rw [hval]

/-- A decimal numeral of a natural number up to 2^53 parses to that number. -/
theorem parseInt_repr (n : Nat) (h : n ≤ 2 ^ 53) :
    parseInt (some (Nat.repr n)) = JsNum.fin (n : Int) := by
  show parseIntString (Nat.repr n) = _
  unfold parseIntString
  rw [signedMathInt_repr n]
  exact ofInt_exact (n : Int) (by simpa using h)

theorem parseInt_undefined : parseInt none = JsNum.nan := by decide

theorem parseInt_lacksNumber (value : Option String) (h : lacksNumber value = true) :
    parseInt value = JsNum.nan := by
  cases value with
  | none => exact parseInt_undefined
  | some s =>
    have hs : startsWithDigit s = false := by simpa [lacksNumber] using h
    show parseIntString s = _
    unfold parseIntString
    rw [signedMathInt_none s hs]

/-- A value that does not open with a minus sign parses to `NaN`, to the positive infinity or
to a natural number. -/
theorem parseInt_nonneg (value : Option String) (h : opensWithMinus value = false) :
    parseInt value = JsNum.nan ∨ parseInt value = JsNum.posInf
      ∨ ∃ m : Nat, parseInt value = JsNum.fin (m : Int) := by
  cases value with
  | none => exact Or.inl parseInt_undefined
  | some s =>
    show parseIntString s = _ ∨ parseIntString s = _ ∨ ∃ m : Nat, parseIntString s = _
    unfold parseIntString
    cases hv : signedMathInt s with
    | none => exact Or.inl rfl
    | some v =>
      right
      exact ofInt_nonneg v (signedMathInt_nonneg s h v hv)

theorem get_queryOf (page limit : String) :
    (queryOf page limit).get "page" = some page
      ∧ (queryOf page limit).get "limit" = some limit := by
  constructor
  · simp [Query.get, queryOf, List.lookup]
  · have h : ("limit" == "page") = false := by decide
    simp [Query.get, queryOf, List.lookup, h]

/-! ## Facts about the arithmetic of `parsePagination` -/

theorem or_nan (d : JsNum) : JsNum.nan.or d = d := rfl

theorem or_zero (d : JsNum) : (JsNum.fin 0).or d = d := rfl

/-- The expression `x || d` with a default that is neither `NaN` nor 0 is neither. -/
theorem or_ne_zero (x d : JsNum) (hn : d ≠ JsNum.nan) (hz : d ≠ JsNum.fin 0) :
    x.or d ≠ JsNum.nan ∧ x.or d ≠ JsNum.fin 0 := by
  unfold JsNum.or
  by_cases ht : x.truthy = true
  · rw [if_pos ht]
    constructor
    · intro h
      rw [h] at ht
      exact absurd ht (by decide)
    · intro h
      rw [h] at ht
      exact absurd ht (by decide)
  · rw [if_neg ht]
    exact ⟨hn, hz⟩

/-- The expression `x || d` with a default of at least 1, for `x` not negative, is at least
1. -/
theorem or_ge_one (x d : JsNum) (hd : JsNum.le (JsNum.fin 1) d = true)
    (hx : x = JsNum.nan ∨ x = JsNum.posInf ∨ ∃ m : Nat, x = JsNum.fin (m : Int)) :
    JsNum.le (JsNum.fin 1) (x.or d) = true := by
  rcases hx with hx | hx | ⟨m, hx⟩
  · rw [hx]
    exact hd
  · rw [hx]
    rfl
  · rw [hx]
    unfold JsNum.or
    by_cases ht : (JsNum.fin (m : Int)).truthy = true
    · rw [if_pos ht]
      have hm : (m : Int) ≠ 0 := by simpa [JsNum.truthy] using ht
      simp only [JsNum.le, decide_eq_true_eq]
      omega
    · rw [if_neg ht]
      exact hd

/-- A number of at least 1 is the positive infinity or a natural number of at least 1. -/
theorem ge_one_cases (x : JsNum) (h : JsNum.le (JsNum.fin 1) x = true) :
    x = JsNum.posInf ∨ ∃ n : Int, 1 ≤ n ∧ x = JsNum.fin n := by
  cases x with
  | nan => exact absurd h (by decide)
  | posInf => exact Or.inl rfl
  | negInf => exact absurd h (by decide)
  | fin n =>
    right
    exact ⟨n, by simpa [JsNum.le] using h, rfl⟩

/-- Only 0 rounds to 0. -/
theorem ofInt_eq_zero (n : Int) (h : JsNum.ofInt n = JsNum.fin 0) : n = 0 := by
  unfold JsNum.ofInt at h
  cases hr : roundNat n.natAbs with
  | none =>
    rw [hr] at h
    simp only at h
    split at h <;> exact absurd h (by simp)
  | some m =>
    rw [hr] at h
    simp only at h
    have hm : m = 0 := by
      have h1 := JsNum.fin.inj h
      split at h1 <;> omega
    rw [hm] at hr
    unfold roundNat at hr
    rw [pow2_eq] at hr
    by_cases hlt : n.natAbs < 2 ^ 53
    · rw [if_pos hlt] at hr
      have h2 := Option.some.inj hr
      omega
    · rw [if_neg hlt] at hr
      simp only at hr
      split at hr
      · have h2 := Option.some.inj hr
        have hpos : 0 < n.natAbs := by
          have h3 : 0 < 2 ^ 53 := Nat.two_pow_pos 53
          omega
        have hu : 0 < pow2 (log2 n.natAbs - 52) := pow2_pos _
        have hnear := (roundHalfEven_near n.natAbs _ hu).2
        rw [h2] at hnear
        have hle : pow2 (log2 n.natAbs - 52) ≤ 2 ^ log2 n.natAbs := by
          rw [pow2_eq]
          exact Nat.pow_le_pow_right (by decide) (by omega)
        have hspec := (log2_spec n.natAbs hpos).1
        omega
      · exact absurd hr (by simp)

/-- One less than a number of at least 1 is the positive infinity or a natural number, and it
is 0 only for 1. -/
theorem sub_one_cases (x : JsNum) (h : JsNum.le (JsNum.fin 1) x = true) :
    (x.sub (JsNum.fin 1) = JsNum.posInf ∨ ∃ k : Nat, x.sub (JsNum.fin 1) = JsNum.fin (k : Int))
      ∧ (x.sub (JsNum.fin 1) = JsNum.fin 0 → x = JsNum.fin 1) := by
  rcases ge_one_cases x h with hx | ⟨n, hn, hx⟩
  · rw [hx]
    exact ⟨Or.inl rfl, fun h0 => absurd h0 (by decide)⟩
  · rw [hx]
    have hs : (JsNum.fin n).sub (JsNum.fin 1) = JsNum.ofInt (n + -1) := rfl
    rw [hs]
    constructor
    · exact ofInt_nonneg (n + -1) (by omega)
    · intro h0
      have h1 := ofInt_eq_zero _ h0
      have h2 : n = 1 := by omega
      rw [h2]

/-- The product of a number that is not negative by a limit of at least 1 is not negative,
except that 0 times the infinity is `NaN`. -/
theorem mul_cases (x limit : JsNum)
    (hx : x = JsNum.posInf ∨ ∃ k : Nat, x = JsNum.fin (k : Int))
    (hl : JsNum.le (JsNum.fin 1) limit = true) :
    JsNum.le (JsNum.fin 0) (x.mul limit) = true
      ∨ (x.mul limit = JsNum.nan ∧ limit = JsNum.posInf ∧ x = JsNum.fin 0) := by
  have hnn : ∀ n : Int, 0 ≤ n → JsNum.le (JsNum.fin 0) (JsNum.ofInt n) = true := by
    intro n h0
    rcases ofInt_nonneg n h0 with h1 | ⟨m, h1⟩
    · rw [h1]
      rfl
    · rw [h1]
      simp [JsNum.le]
  rcases ge_one_cases limit hl with hlim | ⟨l, hl1, hlim⟩
  · rcases hx with hx | ⟨k, hx⟩
    · left
      rw [hx, hlim]
      rfl
    · rw [hx, hlim]
      by_cases hk : (k : Int) = 0
      · right
        rw [hk]
        exact ⟨rfl, rfl, rfl⟩
      · left
        have hpos : (0 : Int) < (k : Int) := by omega
        simp [JsNum.mul, JsNum.infTimes, hk, hpos, JsNum.le]
  · left
    rcases hx with hx | ⟨k, hx⟩
    · rw [hx, hlim]
      have hl0 : l ≠ 0 := by omega
      have hpos : (0 : Int) < l := by omega
      simp [JsNum.mul, JsNum.infTimes, hl0, hpos, JsNum.le]
    · rw [hx, hlim]
      show JsNum.le (JsNum.fin 0) (JsNum.ofInt ((k : Int) * l)) = true
      exact hnn _ (Int.mul_nonneg (by omega) (by omega))

/-! ## `parsePagination` -/

/-- C13, as stated, fails: the strings 12abc and 7up are not numeric, yet `parsePagination`
returns page 12 and limit 7 for them, not the defaults. -/
theorem leading_digits_are_parsed :
    isNumericString "12abc" = false
      ∧ isNumericString "7up" = false
      ∧ (queryOf "12abc" "7up").get "page" = some "12abc"
      ∧ (queryOf "12abc" "7up").get "limit" = some "7up"
      ∧ parsePagination (queryOf "12abc" "7up") = ⟨JsNum.fin 12, JsNum.fin 7, JsNum.fin 77⟩
      ∧ (parsePagination (queryOf "12abc" "7up")).page ≠ JsNum.fin 1
      ∧ (parsePagination (queryOf "12abc" "7up")).limit ≠ JsNum.fin 10 := by
  decide

/-- C13, amended: `parsePagination` falls back to the defaults when `parseInt` finds no number.
For every query in which page is missing or is a string that does not open with a decimal
integer (after leading white space and an optional sign its first character is not a digit)
the result has page 1, and for every query in which limit is such a value the result has limit
10; in particular the empty query gives page 1, limit 10 and skip 0. -/
theorem parsePagination_fallback (query : Query) :
    (lacksNumber (query.get "page") = true → (parsePagination query).page = JsNum.fin 1)
      ∧ (lacksNumber (query.get "limit") = true → (parsePagination query).limit = JsNum.fin 10)
      ∧ parsePagination ⟨[]⟩ = ⟨JsNum.fin 1, JsNum.fin 10, JsNum.fin 0⟩ := by
  refine ⟨?_, ?_, by decide⟩
  · intro h
    show (parseInt (query.get "page")).or (JsNum.fin 1) = JsNum.fin 1
    rw [parseInt_lacksNumber _ h]
    rfl
  · intro h
    show (parseInt (query.get "limit")).or (JsNum.fin 10) = JsNum.fin 10
    rw [parseInt_lacksNumber _ h]
    rfl

theorem parsePagination_fallback_witness :
    lacksNumber ((queryOf "abc" "xyz").get "page") = true
      ∧ lacksNumber ((queryOf "abc" "xyz").get "limit") = true
      ∧ (parsePagination (queryOf "abc" "xyz")).page = JsNum.fin 1
      ∧ (parsePagination (queryOf "abc" "xyz")).limit = JsNum.fin 10 :=
  ⟨by decide, by decide,
    (parsePagination_fallback (queryOf "abc" "xyz")).1 (by decide),
    (parsePagination_fallback (queryOf "abc" "xyz")).2.1 (by decide)⟩

/-- C14, as stated, fails: 9007199254740993 (2^53 + 1) is a positive integer, and on its
decimal numeral as page, or as limit, `parsePagination` returns 9007199254740992, the nearest
double; with page 9007199254740994 and limit 1 the skip is 9007199254740992, not page - 1. -/
theorem large_numerals_are_rounded :
    Nat.repr 9007199254740993 = "9007199254740993"
      ∧ parsePagination (queryOf (Nat.repr 9007199254740993) (Nat.repr 1))
          = ⟨JsNum.fin 9007199254740992, JsNum.fin 1, JsNum.fin 9007199254740991⟩
      ∧ (parsePagination (queryOf (Nat.repr 9007199254740993) (Nat.repr 1))).page
          ≠ JsNum.fin 9007199254740993
      ∧ (parsePagination (queryOf (Nat.repr 1) (Nat.repr 9007199254740993))).limit
          = JsNum.fin 9007199254740992
      ∧ parsePagination (queryOf (Nat.repr 9007199254740994) (Nat.repr 1))
          = ⟨JsNum.fin 9007199254740994, JsNum.fin 1, JsNum.fin 9007199254740992⟩
      ∧ (parsePagination (queryOf (Nat.repr 9007199254740994) (Nat.repr 1))).skip
          ≠ JsNum.fin ((9007199254740994 - 1) * 1) := by
  decide

/-- C14, amended: for every pair of positive integers p and l such that p, l and (p - 1) * l
are at most 2^53, `parsePagination` on the query whose page is the decimal numeral of p and
whose limit is the decimal numeral of l returns exactly page p, limit l and skip
(p - 1) * l.  Above 2^53 the values are rounded to the nearest double. -/
theorem parsePagination_decimal (p l : Nat) (hp : 0 < p) (hl : 0 < l) (hpb : p ≤ 2 ^ 53)
    (hlb : l ≤ 2 ^ 53) (hsb : (p - 1) * l ≤ 2 ^ 53) :
    parsePagination (queryOf (Nat.repr p) (Nat.repr l))
      = ⟨JsNum.fin (p : Int), JsNum.fin (l : Int), JsNum.fin (((p : Int) - 1) * (l : Int))⟩ := by
  have hq := get_queryOf (Nat.repr p) (Nat.repr l)
  have hp0 : (p : Int) ≠ 0 := by omega
  have hl0 : (l : Int) ≠ 0 := by omega
  have hpage : (parseInt (some (Nat.repr p))).or (JsNum.fin 1) = JsNum.fin (p : Int) := by
    rw [parseInt_repr p hpb]
    simp [JsNum.or, JsNum.truthy, hp0]
  have hlimit : (parseInt (some (Nat.repr l))).or (JsNum.fin 10) = JsNum.fin (l : Int) := by
    rw [parseInt_repr l hlb]
    simp [JsNum.or, JsNum.truthy, hl0]
  have hcast : (((p - 1 : Nat) : Int)) = (p : Int) - 1 := by omega
  have hsub : (JsNum.fin (p : Int)).sub (JsNum.fin 1) = JsNum.fin ((p : Int) - 1) := by
    show JsNum.ofInt ((p : Int) + -1) = _
    have h1 : (p : Int) + -1 = (p : Int) - 1 := by ring
    rw [h1]
    exact ofInt_exact _ (by omega)
  have hmul : (JsNum.fin ((p : Int) - 1)).mul (JsNum.fin (l : Int))
      = JsNum.fin (((p : Int) - 1) * (l : Int)) := by
    show JsNum.ofInt (((p : Int) - 1) * (l : Int)) = _
    apply ofInt_exact
    have h2 : (((p : Int) - 1) * (l : Int)).natAbs = (p - 1) * l := by
      rw [← hcast, ← Int.natCast_mul, Int.natAbs_ofNat]
    rw [h2]
    exact hsb
  unfold parsePagination
  simp only [hq.1, hq.2, hpage, hlimit, hsub, hmul]

theorem parsePagination_decimal_witness :
    0 < 5 ∧ 0 < 15 ∧ 5 ≤ 2 ^ 53 ∧ 15 ≤ 2 ^ 53 ∧ (5 - 1) * 15 ≤ 2 ^ 53
      ∧ parsePagination (queryOf (Nat.repr 5) (Nat.repr 15))
          = ⟨JsNum.fin ((5 : Nat) : Int), JsNum.fin ((15 : Nat) : Int),
              JsNum.fin ((((5 : Nat) : Int) - 1) * ((15 : Nat) : Int))⟩ :=
  ⟨by decide, by decide, by decide, by decide, by decide,
    parsePagination_decimal 5 15 (by decide) (by decide) (by decide) (by decide) (by decide)⟩

set_option maxRecDepth 100000 in
/-- C15, as stated, fails: a negative page or limit is returned as parsed, so the page, the
limit and the skip can all be below the bounds; and with page 1 and a limit of 400 digits the
limit is the infinity and the skip, 0 times the infinity, is `NaN`, which is not at least 0. -/
theorem negative_values_pass_through :
    parsePagination (queryOf "-5" "10") = ⟨JsNum.fin (-5), JsNum.fin 10, JsNum.fin (-60)⟩
      ∧ JsNum.le (JsNum.fin 1) (parsePagination (queryOf "-5" "10")).page = false
      ∧ JsNum.le (JsNum.fin 0) (parsePagination (queryOf "-5" "10")).skip = false
      ∧ parsePagination (queryOf "2" "-3") = ⟨JsNum.fin 2, JsNum.fin (-3), JsNum.fin (-3)⟩
      ∧ JsNum.le (JsNum.fin 1) (parsePagination (queryOf "2" "-3")).limit = false
      ∧ parsePagination (queryOf "1" hugeNumeral) = ⟨JsNum.fin 1, JsNum.posInf, JsNum.nan⟩
      ∧ JsNum.le (JsNum.fin 0) (parsePagination (queryOf "1" hugeNumeral)).skip = false := by
  decide

/-- C15, amended: for every query, a page that is missing or does not open with a minus sign
gives a page of at least 1, a limit that is missing or does not open with a minus sign gives a
limit of at least 1, and when both hold the skip is at least 0, except that it is `NaN` when
the page is 1 and the limit is the infinity (a limit too large for a double); a value for
which `parseInt` returns `NaN` or 0 (missing, malformed or zero) triggers the fallback to page
1 or limit 10.  Negative values are left out: they are returned as parsed. -/
theorem parsePagination_bounds (query : Query) :
    (opensWithMinus (query.get "page") = false →
        JsNum.le (JsNum.fin 1) (parsePagination query).page = true)
      ∧ (opensWithMinus (query.get "limit") = false →
          JsNum.le (JsNum.fin 1) (parsePagination query).limit = true)
      ∧ (opensWithMinus (query.get "page") = false →
          opensWithMinus (query.get "limit") = false →
          JsNum.le (JsNum.fin 0) (parsePagination query).skip = true
            ∨ ((parsePagination query).skip = JsNum.nan
                ∧ (parsePagination query).limit = JsNum.posInf
                ∧ (parsePagination query).page = JsNum.fin 1))
      ∧ ((parseInt (query.get "page") = JsNum.nan
            ∨ parseInt (query.get "page") = JsNum.fin 0) →
          (parsePagination query).page = JsNum.fin 1)
      ∧ ((parseInt (query.get "limit") = JsNum.nan
            ∨ parseInt (query.get "limit") = JsNum.fin 0) →
          (parsePagination query).limit = JsNum.fin 10) := by
  have hpage : opensWithMinus (query.get "page") = false →
      JsNum.le (JsNum.fin 1) (parsePagination query).page = true := by
    intro h
    exact or_ge_one _ (JsNum.fin 1) (by decide) (parseInt_nonneg _ h)
  have hlimit : opensWithMinus (query.get "limit") = false →
      JsNum.le (JsNum.fin 1) (parsePagination query).limit = true := by
    intro h
    exact or_ge_one _ (JsNum.fin 10) (by decide) (parseInt_nonneg _ h)
  refine ⟨hpage, hlimit, ?_, ?_, ?_⟩
  · intro h1 h2
    have hs := sub_one_cases (parsePagination query).page (hpage h1)
    have hm := mul_cases ((parsePagination query).page.sub (JsNum.fin 1))
      (parsePagination query).limit hs.1 (hlimit h2)
    rcases hm with hm | ⟨hm1, hm2, hm3⟩
    · exact Or.inl hm
    · exact Or.inr ⟨hm1, hm2, hs.2 hm3⟩
  · intro h
    show (parseInt (query.get "page")).or (JsNum.fin 1) = JsNum.fin 1
    rcases h with h | h <;> rw [h] <;> rfl
  · intro h
    show (parseInt (query.get "limit")).or (JsNum.fin 10) = JsNum.fin 10
    rcases h with h | h <;> rw [h] <;> rfl

theorem parsePagination_bounds_witness :
    opensWithMinus ((queryOf "0" "x10").get "page") = false
      ∧ opensWithMinus ((queryOf "0" "x10").get "limit") = false
      ∧ JsNum.le (JsNum.fin 1) (parsePagination (queryOf "0" "x10")).page = true
      ∧ JsNum.le (JsNum.fin 1) (parsePagination (queryOf "0" "x10")).limit = true
      ∧ (JsNum.le (JsNum.fin 0) (parsePagination (queryOf "0" "x10")).skip = true
          ∨ ((parsePagination (queryOf "0" "x10")).skip = JsNum.nan
              ∧ (parsePagination (queryOf "0" "x10")).limit = JsNum.posInf
              ∧ (parsePagination (queryOf "0" "x10")).page = JsNum.fin 1)) :=
  ⟨by decide, by decide,
    (parsePagination_bounds (queryOf "0" "x10")).1 (by decide),
    (parsePagination_bounds (queryOf "0" "x10")).2.1 (by decide),
    (parsePagination_bounds (queryOf "0" "x10")).2.2.1 (by decide) (by decide)⟩

/-! ## `generatePaginationMeta` -/

/-- C16, as stated, fails: 27021597764222984 is a double, and for that total and limit 3 the
totalPages field is 9007199254740994, which is neither the ceiling of total / limit
(9007199254740995) nor a number n with n * limit at least total: the quotient is rounded to
the nearest double before `Math.ceil` sees it. -/
theorem large_total_misses_ceiling :
    JsNum.ofInt 27021597764222984 = JsNum.fin 27021597764222984
      ∧ (generatePaginationMeta (JsNum.fin 27021597764222984) (JsNum.fin 1)
          (JsNum.fin 3)).totalPages = JsNum.fin 9007199254740994
      ∧ ¬ ((27021597764222984 : Int) ≤ 9007199254740994 * 3)
      ∧ ceilQuotient 27021597764222984 3 = 9007199254740995
      ∧ (generatePaginationMeta (JsNum.fin 27021597764222984) (JsNum.fin 1)
          (JsNum.fin 3)).totalPages ≠ JsNum.fin (ceilQuotient 27021597764222984 3) := by
  decide

/-- C16, amended: for every total of at least 0 and below 2^53 and every limit of at least 1,
the totalPages field of `generatePaginationMeta` is the ceiling of total / limit, that is the
least natural number n with n * limit at least total; a total of 0 gives 0 pages, and a total
that is not a multiple of the limit rounds up to one more than the integer quotient.  From
2^53 on the quotient is rounded before the ceiling is taken. -/
theorem totalPages_is_ceiling (total page limit : Int) (ht : 0 ≤ total)
    (htb : total < 2 ^ 53) (hl : 1 ≤ limit) :
    ∃ n : Nat,
      (generatePaginationMeta (JsNum.fin total) (JsNum.fin page) (JsNum.fin limit)).totalPages
          = JsNum.fin (n : Int)
      ∧ total ≤ (n : Int) * limit
      ∧ (∀ m : Nat, total ≤ (m : Int) * limit → n ≤ m)
      ∧ (n : Int) = ⌈(total : ℚ) / (limit : ℚ)⌉
      ∧ (total = 0 → n = 0)
      ∧ (total % limit ≠ 0 → (n : Int) = total / limit + 1)
      ∧ (total % limit = 0 → (n : Int) = total / limit) := by
  have hb : 0 < limit := by omega
  have h0 := ceilQuotient_nonneg total limit ht hb
  have hle := ceilQuotient_le_iff total limit
  refine ⟨(ceilQuotient total limit).toNat, ?_, ?_, ?_, ?_, ?_, ?_, ?_⟩
  · show ceilDiv (JsNum.fin total) (JsNum.fin limit) = _
    rw [ceilDiv_exact total limit ht htb hl, Int.toNat_of_nonneg h0]
  · rw [Int.toNat_of_nonneg h0]
    exact (hle _ hb).1 (le_refl _)
  · intro m hm
    have h1 := (hle m hb).2 hm
    omega
  · rw [Int.toNat_of_nonneg h0]
    exact ceilQuotient_eq_ceil total limit hb
  · intro hz
    have h1 : ceilQuotient total limit ≤ 0 := by
      rw [hle 0 hb, hz]
      simp
    omega
  · intro hm
    rw [Int.toNat_of_nonneg h0]
    have hmod := Int.emod_nonneg total (show limit ≠ 0 by omega)
    have hdiv := Int.ediv_add_emod' total limit
    apply le_antisymm
    · rw [hle _ hb]
      exact Int.le_of_lt (Int.lt_ediv_add_one_mul_self total hb)
    · have h2 : total / limit < ceilQuotient total limit := by
        rw [lt_ceilQuotient_iff total limit _ hb]
        omega
      omega
  · intro hm
    rw [Int.toNat_of_nonneg h0]
    have hdiv := Int.ediv_add_emod' total limit
    apply le_antisymm
    · rw [hle _ hb]
      omega
    · have h2 : total / limit - 1 < ceilQuotient total limit := by
        rw [lt_ceilQuotient_iff total limit _ hb]
        have h3 : (total / limit - 1) * limit = total / limit * limit - limit := by ring
        omega
      omega

theorem totalPages_is_ceiling_witness :
    (0 : Int) ≤ 25 ∧ (25 : Int) < 2 ^ 53 ∧ (1 : Int) ≤ 10
      ∧ ∃ n : Nat,
        (generatePaginationMeta (JsNum.fin 25) (JsNum.fin 1) (JsNum.fin 10)).totalPages
            = JsNum.fin (n : Int)
        ∧ (25 : Int) ≤ (n : Int) * 10
        ∧ (∀ m : Nat, (25 : Int) ≤ (m : Int) * 10 → n ≤ m)
        ∧ (n : Int) = ⌈((25 : Int) : ℚ) / ((10 : Int) : ℚ)⌉
        ∧ ((25 : Int) = 0 → n = 0)
        ∧ ((25 : Int) % 10 ≠ 0 → (n : Int) = 25 / 10 + 1)
        ∧ ((25 : Int) % 10 = 0 → (n : Int) = 25 / 10) :=
  ⟨by decide, by decide, by decide,
    totalPages_is_ceiling 25 1 10 (by decide) (by decide) (by decide)⟩

/-- C17: for every total of at least 0 and every page and limit of at least 1, the record
`generatePaginationMeta` returns carries total, page and limit unchanged, its totalPages is an
integer, its hasNext is true exactly when page is below totalPages, and its hasPrev is true
exactly when page is above 1. -/
theorem meta_fields_and_flags (total page limit : Int) (ht : 0 ≤ total) (hp : 1 ≤ page)
    (hl : 1 ≤ limit) :
    (generatePaginationMeta (JsNum.fin total) (JsNum.fin page) (JsNum.fin limit)).total
        = JsNum.fin total
      ∧ (generatePaginationMeta (JsNum.fin total) (JsNum.fin page) (JsNum.fin limit)).page
          = JsNum.fin page
      ∧ (generatePaginationMeta (JsNum.fin total) (JsNum.fin page) (JsNum.fin limit)).limit
          = JsNum.fin limit
      ∧ (∃ pages : Int, 0 ≤ pages
          ∧ (generatePaginationMeta (JsNum.fin total) (JsNum.fin page)
              (JsNum.fin limit)).totalPages = JsNum.fin pages
          ∧ ((generatePaginationMeta (JsNum.fin total) (JsNum.fin page)
              (JsNum.fin limit)).hasNext = true ↔ page < pages))
      ∧ ((generatePaginationMeta (JsNum.fin total) (JsNum.fin page)
          (JsNum.fin limit)).hasPrev = true ↔ 1 < page) := by
  have hpos : 0 < page := by omega
  obtain ⟨n, hn⟩ := ceilDiv_natural total limit ht hl
  refine ⟨rfl, rfl, rfl, ⟨(n : Int), by omega, hn, ?_⟩, ?_⟩
  · show JsNum.lt (JsNum.fin page) (ceilDiv (JsNum.fin total) (JsNum.fin limit)) = true ↔ _
    rw [hn]
    simp [JsNum.lt]
  · show JsNum.lt (JsNum.fin 1) (JsNum.fin page) = true ↔ _
    simp [JsNum.lt]

theorem meta_fields_and_flags_witness :
    (0 : Int) ≤ 100 ∧ (1 : Int) ≤ 5 ∧ (1 : Int) ≤ 10
      ∧ (generatePaginationMeta (JsNum.fin 100) (JsNum.fin 5) (JsNum.fin 10)).total
          = JsNum.fin 100
      ∧ (generatePaginationMeta (JsNum.fin 100) (JsNum.fin 5) (JsNum.fin 10)).page
          = JsNum.fin 5
      ∧ (generatePaginationMeta (JsNum.fin 100) (JsNum.fin 5) (JsNum.fin 10)).limit
          = JsNum.fin 10
      ∧ (∃ pages : Int, 0 ≤ pages
          ∧ (generatePaginationMeta (JsNum.fin 100) (JsNum.fin 5) (JsNum.fin 10)).totalPages
              = JsNum.fin pages
          ∧ ((generatePaginationMeta (JsNum.fin 100) (JsNum.fin 5) (JsNum.fin 10)).hasNext = true
              ↔ 5 < pages))
      ∧ ((generatePaginationMeta (JsNum.fin 100) (JsNum.fin 5) (JsNum.fin 10)).hasPrev = true
          ↔ (1 : Int) < 5) :=
  ⟨by decide, by decide, by decide,
    meta_fields_and_flags 100 5 10 (by decide) (by decide) (by decide)⟩

/-- C18, as stated, fails: with page and total both 9007199254740994 (a double) and limit 1,
the skip `parsePagination` computes is 9007199254740992, since page - 1 is rounded, so
skip + limit is below total while hasNext is false. -/
theorem flags_miss_window_of_large_page :
    JsNum.ofInt 9007199254740994 = JsNum.fin 9007199254740994
      ∧ parsePagination (queryOf "9007199254740994" "1")
          = ⟨JsNum.fin 9007199254740994, JsNum.fin 1, JsNum.fin 9007199254740992⟩
      ∧ ((JsNum.fin 9007199254740994).sub (JsNum.fin 1)).mul (JsNum.fin 1)
          = JsNum.fin 9007199254740992
      ∧ JsNum.lt ((JsNum.fin 9007199254740992).add (JsNum.fin 1)) (JsNum.fin 9007199254740994)
          = true
      ∧ (9007199254740992 : Int) + 1 < 9007199254740994
      ∧ (generatePaginationMeta (JsNum.fin 9007199254740994) (JsNum.fin 9007199254740994)
          (JsNum.fin 1)).hasNext = false := by
  decide

/-- C18, amended: the flags agree with the window `parsePagination` computes as long as the
numbers are exact.  For every total of at least 0 and below 2^53 and every page and limit of
at least 1 with page * limit at most 2^53, the skip (page - 1) * limit and the sum
skip + limit are computed exactly, hasNext is true if and only if skip + limit is below total,
and hasPrev is true if and only if skip is above 0; the skip of `parsePagination` is that
product. -/
theorem flags_match_window (total page limit : Int) (ht : 0 ≤ total) (htb : total < 2 ^ 53)
    (hp : 1 ≤ page) (hl : 1 ≤ limit) (hpl : page * limit ≤ 2 ^ 53) :
    ((JsNum.fin page).sub (JsNum.fin 1)).mul (JsNum.fin limit)
        = JsNum.fin ((page - 1) * limit)
      ∧ (JsNum.fin ((page - 1) * limit)).add (JsNum.fin limit)
          = JsNum.fin ((page - 1) * limit + limit)
      ∧ ((generatePaginationMeta (JsNum.fin total) (JsNum.fin page) (JsNum.fin limit)).hasNext
            = true
          ↔ (page - 1) * limit + limit < total)
      ∧ ((generatePaginationMeta (JsNum.fin total) (JsNum.fin page) (JsNum.fin limit)).hasPrev
            = true
          ↔ 0 < (page - 1) * limit)
      ∧ ∀ query : Query, (parsePagination query).skip
          = ((parsePagination query).page.sub (JsNum.fin 1)).mul (parsePagination query).limit := by
  have hb : 0 < limit := by omega
  have hsum : (page - 1) * limit + limit = page * limit := by ring
  have hprod0 : 0 ≤ (page - 1) * limit := Int.mul_nonneg (by omega) (by omega)
  have hpage_le : page ≤ page * limit := by
    have h1 : page * 1 ≤ page * limit := Int.mul_le_mul_of_nonneg_left hl (by omega)
    omega
  refine ⟨?_, ?_, ?_, ?_, fun _ => rfl⟩
  · have hsub : (JsNum.fin page).sub (JsNum.fin 1) = JsNum.fin (page - 1) := by
      show JsNum.ofInt (page + -1) = _
      have h1 : page + -1 = page - 1 := by ring
      rw [h1]
      exact ofInt_exact _ (by omega)
    rw [hsub]
    show JsNum.ofInt ((page - 1) * limit) = _
    exact ofInt_exact _ (by omega)
  · show JsNum.ofInt ((page - 1) * limit + limit) = _
    exact ofInt_exact _ (by omega)
  · show JsNum.lt (JsNum.fin page) (ceilDiv (JsNum.fin total) (JsNum.fin limit)) = true ↔ _
    rw [ceilDiv_exact total limit ht htb hl, hsum]
    simp only [JsNum.lt, decide_eq_true_eq]
    exact lt_ceilQuotient_iff total limit page hb
  · show JsNum.lt (JsNum.fin 1) (JsNum.fin page) = true ↔ _
    simp only [JsNum.lt, decide_eq_true_eq]
    constructor
    · intro h
      exact Int.mul_pos (by omega) hb
    · intro h
      by_contra hc
      have h2 : page - 1 = 0 := by omega
      rw [h2] at h
      simp at h

theorem flags_match_window_witness :
    (0 : Int) ≤ 100 ∧ (100 : Int) < 2 ^ 53 ∧ (1 : Int) ≤ 10 ∧ (1 : Int) ≤ 10
      ∧ (10 : Int) * 10 ≤ 2 ^ 53
      ∧ ((JsNum.fin 10).sub (JsNum.fin 1)).mul (JsNum.fin 10) = JsNum.fin ((10 - 1) * 10)
      ∧ (JsNum.fin ((10 - 1) * 10)).add (JsNum.fin 10) = JsNum.fin ((10 - 1) * 10 + 10)
      ∧ ((generatePaginationMeta (JsNum.fin 100) (JsNum.fin 10) (JsNum.fin 10)).hasNext = true
          ↔ ((10 : Int) - 1) * 10 + 10 < 100)
      ∧ ((generatePaginationMeta (JsNum.fin 100) (JsNum.fin 10) (JsNum.fin 10)).hasPrev = true
          ↔ (0 : Int) < (10 - 1) * 10)
      ∧ ∀ query : Query, (parsePagination query).skip
          = ((parsePagination query).page.sub (JsNum.fin 1)).mul
              (parsePagination query).limit :=
  ⟨by decide, by decide, by decide, by decide, by decide,
    flags_match_window 100 10 10 (by decide) (by decide) (by decide) (by decide) (by decide)⟩

/-- C29: for every query `parsePagination` returns a page and a limit different from 0, so
`generatePaginationMeta` called with that page and that limit divides by a non-zero limit and
its totalPages is an integer (neither `NaN` nor an infinity), for every total, those of at
least 0 included. -/
theorem limit_never_zero (query : Query) (total : Int) :
    (parsePagination query).page ≠ JsNum.fin 0
      ∧ (parsePagination query).limit ≠ JsNum.fin 0
      ∧ ∃ pages : Int,
          (generatePaginationMeta (JsNum.fin total) (parsePagination query).page
            (parsePagination query).limit).totalPages = JsNum.fin pages := by
  have hp := or_ne_zero (parseInt (query.get "page")) (JsNum.fin 1) (by decide) (by decide)
  have hl := or_ne_zero (parseInt (query.get "limit")) (JsNum.fin 10) (by decide) (by decide)
  exact ⟨hp.2, hl.2, ceilDiv_integer total _ hl.1 hl.2⟩

end Pagination

namespace Response

/-! ## The success and error envelopes -/

/-- C19: for every data value (null and arrays included), message and status code,
`successResponse` sets the status to the status code and the body to exactly the object with
success true, the message and the data, the data being passed through unchanged; an omitted
message is Success and an omitted status code is 200. -/
theorem successResponse_envelope (res : Res) (data : Json) (message : String)
    (statusCode : Nat) :
    (successResponse res data (some message) (some statusCode)).statusCode = some statusCode
      ∧ (successResponse res data (some message) (some statusCode)).body
          = some (Json.obj
              [("success", Json.bool true), ("message", Json.str message), ("data", data)])
      ∧ ((successResponse res data (some message) (some statusCode)).body.getD Json.null).get
          "data" = data
      ∧ ((successResponse res data (some message) (some statusCode)).body.getD Json.null).keys
          = ["success", "message", "data"]
      ∧ (successResponse res data none none).statusCode = some 200
      ∧ (successResponse res data none none).body
          = some (Json.obj
              [("success", Json.bool true), ("message", Json.str "Success"), ("data", data)])
      ∧ (successResponse res Json.null none none).body
          = some (Json.obj
              [("success", Json.bool true), ("message", Json.str "Success"),
                ("data", Json.null)])
      ∧ ∀ items : List Json, ((successResponse res (Json.arr items) none none).body.getD
          Json.null).get "data" = Json.arr items := by
  have hk : ("data" == "success") = false ∧ ("data" == "message") = false := by decide
  refine ⟨rfl, rfl, ?_, rfl, rfl, rfl, rfl, ?_⟩
  · simp [successResponse, Res.json, Res.status, Json.get, List.lookup, hk.1, hk.2]
  · intro items
    simp [successResponse, Res.json, Res.status, Json.get, List.lookup, hk.1, hk.2]

/-- C20: `errorResponse` writes an errors key exactly when a non-null errors list is supplied.
With errors null or omitted the body is the object with success false and the message, without
an errors key; for every errors list, the empty one included, the body has one more key,
errors, whose value is the supplied list. -/
theorem errorResponse_errors_key (res : Res) (message : Option String)
    (statusCode : Option Nat) :
    (∀ errors : Json, errors = Json.null ∨ errors = Json.undefined →
        (errorResponse res message statusCode errors).body
            = some (Json.obj
                [("success", Json.bool false), ("message", Json.str (message.getD "Error"))])
          ∧ "errors" ∉ ((errorResponse res message statusCode errors).body.getD Json.null).keys)
      ∧ (∀ items : List Json,
        (errorResponse res message statusCode (Json.arr items)).body
            = some (Json.obj
                [("success", Json.bool false), ("message", Json.str (message.getD "Error")),
                  ("errors", Json.arr items)])
          ∧ "errors" ∈
              ((errorResponse res message statusCode (Json.arr items)).body.getD Json.null).keys
          ∧ ((errorResponse res message statusCode (Json.arr items)).body.getD Json.null).get
              "errors" = Json.arr items)
      ∧ ((errorResponse res message statusCode (Json.arr [])).body.getD Json.null).get
          "errors" = Json.arr [] := by
  have hk : ("errors" == "success") = false ∧ ("errors" == "message") = false := by decide
  have hlist : ∀ items : List Json,
      ((errorResponse res message statusCode (Json.arr items)).body.getD Json.null).get
        "errors" = Json.arr items := by
    intro items
    simp [errorResponse, Res.json, Res.status, Json.get, Json.withDefault, Json.truthy,
      List.lookup, hk.1, hk.2]
  refine ⟨?_, ?_, hlist []⟩
  · intro errors h
    rcases h with h | h <;> rw [h]
    · refine ⟨rfl, ?_⟩
      simp [errorResponse, Res.json, Res.status, Json.keys, Json.withDefault, Json.truthy]
    · refine ⟨rfl, ?_⟩
      simp [errorResponse, Res.json, Res.status, Json.keys, Json.withDefault, Json.truthy]
  · intro items
    refine ⟨rfl, ?_, hlist items⟩
    simp [errorResponse, Res.json, Res.status, Json.keys, Json.withDefault, Json.truthy]

/-- C21: for every message and status code, `errorResponse(res, message, statusCode)` sets the
status to the status code, the success of the body to false and its message to the message;
with both omitted the status is 500 and the body is exactly the object with success false and
the message Error. -/
theorem errorResponse_envelope (res : Res) (message : String) (statusCode : Nat) :
    (errorResponse res (some message) (some statusCode) Json.undefined).statusCode
        = some statusCode
      ∧ ((errorResponse res (some message) (some statusCode) Json.undefined).body.getD
          Json.null).get "success" = Json.bool false
      ∧ ((errorResponse res (some message) (some statusCode) Json.undefined).body.getD
          Json.null).get "message" = Json.str message
      ∧ (errorResponse res (some message) (some statusCode) Json.undefined).body
          = some (Json.obj [("success", Json.bool false), ("message", Json.str message)])
      ∧ (errorResponse res none none Json.undefined).statusCode = some 500
      ∧ (errorResponse res none none Json.undefined).body
          = some (Json.obj [("success", Json.bool false), ("message", Json.str "Error")]) := by
  have hk : ("message" == "success") = false := by decide
  refine ⟨rfl, ?_, ?_, rfl, rfl, rfl⟩
  · simp [errorResponse, Res.json, Res.status, Json.get, Json.withDefault, Json.truthy,
      List.lookup]
  · simp [errorResponse, Res.json, Res.status, Json.get, Json.withDefault, Json.truthy,
      List.lookup, hk]

/-- C22: for every data list, pagination record and message, `paginatedResponse` sets the
status 200, whatever it is given (it takes no status code), and the body exactly the object
with success true, the message, the data and the pagination, both passed through unchanged;
an omitted message is Success. -/
theorem paginatedResponse_envelope (res : Res) (data pagination : Json) (message : String) :
    (paginatedResponse res data pagination (some message)).statusCode = some 200
      ∧ (paginatedResponse res data pagination (some message)).body
          = some (Json.obj
              [("success", Json.bool true), ("message", Json.str message), ("data", data),
                ("pagination", pagination)])
      ∧ (paginatedResponse res data pagination none).statusCode = some 200
      ∧ (paginatedResponse res data pagination none).body
          = some (Json.obj
              [("success", Json.bool true), ("message", Json.str "Success"), ("data", data),
                ("pagination", pagination)])
      ∧ (∀ items : List Json,
          ((paginatedResponse res (Json.arr items) pagination (some message)).body.getD
            Json.null).get "data" = Json.arr items)
      ∧ ((paginatedResponse res data pagination (some message)).body.getD Json.null).get
          "pagination" = pagination := by
  have hk : ("data" == "success") = false ∧ ("data" == "message") = false
      ∧ ("pagination" == "success") = false ∧ ("pagination" == "message") = false
      ∧ ("pagination" == "data") = false := by decide
  refine ⟨rfl, rfl, rfl, rfl, ?_, ?_⟩
  · intro items
    simp [paginatedResponse, Res.json, Res.status, Json.get, List.lookup, hk.1, hk.2.1]
  · simp [paginatedResponse, Res.json, Res.status, Json.get, List.lookup, hk.2.2.1,
      hk.2.2.2.1, hk.2.2.2.2]

end Response

namespace Auth

open Authorize (CalledNext Responded)

/-! ## Facts about `authenticate` -/

theorem startsWith_ne_nil (l : List Char) (h : startsWith l "Bearer ".data = true) : l ≠ [] := by
  intro hl
  rw [hl] at h
  revert h
  decide

theorem data_ne_nil (str : String) (h : str.data ≠ []) : str ≠ "" := by
  intro hs
  rw [hs] at h
  exact h rfl

theorem deny_user (s : State) (code : Nat) (message : String) :
    (s.deny code message).user = s.user := rfl

theorem deny_responded (s : State) (code : Nat) (message : String) :
    Responded s.ctx (s.deny code message).ctx code message :=
  Authorize.responded_send s.ctx code message

theorem deny_not_calledNext (s : State) (code : Nat) (message : String) :
    ¬ CalledNext s.ctx (s.deny code message).ctx :=
  Authorize.not_calledNext_send s.ctx code _

theorem onError_expired (s : State) :
    onError "TokenExpiredError" s = s.deny 401 "Token expired" := rfl

theorem onError_invalid (s : State) :
    onError "JsonWebTokenError" s = s.deny 401 "Invalid token" := by
  unfold onError
  rw [if_neg (by decide), if_pos rfl]

theorem onError_other (name : String) (s : State) (h1 : name ≠ "TokenExpiredError")
    (h2 : name ≠ "JsonWebTokenError") : onError name s = s.deny 500 "Authentication error" := by
  unfold onError
  rw [if_neg h1, if_neg h2]

/-- The `catch` block answers with one of three responses. -/
theorem onError_cases (name : String) (s : State) :
    onError name s = s.deny 401 "Token expired" ∨ onError name s = s.deny 401 "Invalid token"
      ∨ onError name s = s.deny 500 "Authentication error" := by
  unfold onError
  by_cases h1 : name = "TokenExpiredError"
  · rw [if_pos h1]
    exact Or.inl rfl
  · rw [if_neg h1]
    by_cases h2 : name = "JsonWebTokenError"
    · rw [if_pos h2]
      exact Or.inr (Or.inl rfl)
    · rw [if_neg h2]
      exact Or.inr (Or.inr rfl)

/-- Without a header that starts with Bearer and a blank the middleware answers 401. -/
theorem authenticate_no_bearer (env : Env) (authorization : Option String) (s : State)
    (h : authorization = none
      ∨ ∃ authHeader, authorization = some authHeader
          ∧ startsWith authHeader.data "Bearer ".data = false) :
    authenticate env authorization s = s.deny 401 "Access token is required" := by
  rcases h with h | ⟨authHeader, h, hb⟩
  · rw [h]
    rfl
  · rw [h]
    unfold authenticate
    simp [hb]

/-- With such a header the middleware goes on to the two outside calls. -/
theorem authenticate_bearer (env : Env) (authHeader : String) (s : State)
    (hb : startsWith authHeader.data "Bearer ".data = true) :
    authenticate env (some authHeader) s =
      match env.verify (tokenOf authHeader) with
      | Except.error name => onError name s
      | Except.ok userId =>
        match env.findUnique userId with
        | Except.error name => onError name s
        | Except.ok none => s.deny 401 "User not found or inactive"
        | Except.ok (some user) =>
          if user.isActive = true then
            { user := some
                { id := user.id
                  email := user.email
                  fullName := user.fullName
                  institutionId := user.institutionId
                  roles := user.roles.map (fun ur => ur.role.name)
                  lecturerId := lecturerIdOf user }
              ctx := s.ctx.next }
          else s.deny 401 "User not found or inactive" := by
  have hne : authHeader ≠ "" := data_ne_nil authHeader (startsWith_ne_nil _ hb)
  unfold authenticate tokenOf
  simp only [hne, hb, decide_False, Bool.not_true, Bool.or_self, Bool.false_eq_true, if_false]
  cases env.verify (Option.map String.mk (split ' ' authHeader.data)[1]?) with
  | error name => rfl
  | ok userId =>
    simp only
    cases env.findUnique userId with
    | error name => rfl
    | ok found =>
      cases found with
      | none => rfl
      | some user =>
        simp only
        cases user.isActive <;> simp

/-- The identity built from a user row. -/
theorem lecturerIdOf_cases (user : UserRow) :
    (lecturerIdOf user = Authorize.JsVal.null
        ∨ ∃ lecturer, user.lecturer = some lecturer ∧ lecturer.id ≠ ""
            ∧ lecturerIdOf user = Authorize.JsVal.str lecturer.id)
      ∧ lecturerIdOf user ≠ Authorize.JsVal.undefined
      ∧ lecturerIdOf user ≠ Authorize.JsVal.str "" := by
  unfold lecturerIdOf
  cases hl : user.lecturer with
  | none =>
    simp [Authorize.JsVal.or, Authorize.JsVal.truthy]
  | some lecturer =>
    by_cases hid : lecturer.id = ""
    · simp [Authorize.JsVal.or, Authorize.JsVal.truthy, hid]
    · simp [Authorize.JsVal.or, Authorize.JsVal.truthy, hid]

/-- The lecturer id the middleware attaches is null or a non-empty string, which is what the
owner-or-role gate takes for an attached lecturer id. -/
theorem lecturerIdOf_attached (user : UserRow) :
    Authorize.attachedLecturerId (lecturerIdOf user) = true := by
  unfold lecturerIdOf
  cases hl : user.lecturer with
  | none => rfl
  | some lecturer =>
    by_cases hid : lecturer.id = ""
    · simp [Authorize.JsVal.or, Authorize.JsVal.truthy, hid, Authorize.attachedLecturerId]
    · simp [Authorize.JsVal.or, Authorize.JsVal.truthy, hid, Authorize.attachedLecturerId,
        Authorize.JsVal.isId]

/-- Every run of the middleware is of one of two kinds: the request is accepted, the identity
of the looked-up user is attached and `next` is called; or it is not accepted, nothing is
attached and one of five responses is written. -/
theorem authenticate_outcome (env : Env) (authorization : Option String) (s : State) :
    (Accepted env authorization
        ∧ ∃ (userId : String) (user : UserRow),
            env.findUnique userId = Except.ok (some user) ∧ user.isActive = true
            ∧ authenticate env authorization s =
                { user := some
                    { id := user.id
                      email := user.email
                      fullName := user.fullName
                      institutionId := user.institutionId
                      roles := user.roles.map (fun ur => ur.role.name)
                      lecturerId := lecturerIdOf user }
                  ctx := s.ctx.next })
      ∨ (¬ Accepted env authorization
        ∧ (authenticate env authorization s = s.deny 401 "Access token is required"
          ∨ authenticate env authorization s = s.deny 401 "Token expired"
          ∨ authenticate env authorization s = s.deny 401 "Invalid token"
          ∨ authenticate env authorization s = s.deny 401 "User not found or inactive"
          ∨ authenticate env authorization s = s.deny 500 "Authentication error")) := by
  cases hauth : authorization with
  | none =>
    right
    refine ⟨?_, Or.inl (authenticate_no_bearer env none s (Or.inl rfl))⟩
    rintro ⟨authHeader, userId, user, h, _⟩
    exact absurd h (by simp)
  | some authHeader =>
    by_cases hb : startsWith authHeader.data "Bearer ".data = true
    · have hstep := authenticate_bearer env authHeader s hb
      cases hv : env.verify (tokenOf authHeader) with
      | error name =>
        have hout : authenticate env (some authHeader) s = onError name s := by
          rw [hstep, hv]
        rw [hout]
        right
        constructor
        · rintro ⟨h', userId, user, h, _, hv', _⟩
          rw [← Option.some.inj h, hv] at hv'
          exact absurd hv' (by simp)
        · rcases onError_cases name s with h | h | h
          · exact Or.inr (Or.inl h)
          · exact Or.inr (Or.inr (Or.inl h))
          · exact Or.inr (Or.inr (Or.inr (Or.inr h)))
      | ok userId =>
        cases hf : env.findUnique userId with
        | error name =>
          have hout : authenticate env (some authHeader) s = onError name s := by
            rw [hstep, hv]
            simp only [hf]
          rw [hout]
          right
          constructor
          · rintro ⟨h', userId', user, h, _, hv', hf', _⟩
            rw [← Option.some.inj h, hv] at hv'
            rw [← Except.ok.inj hv', hf] at hf'
            exact absurd hf' (by simp)
          · rcases onError_cases name s with h | h | h
            · exact Or.inr (Or.inl h)
            · exact Or.inr (Or.inr (Or.inl h))
            · exact Or.inr (Or.inr (Or.inr (Or.inr h)))
        | ok found =>
          cases found with
          | none =>
            have hout : authenticate env (some authHeader) s
                = s.deny 401 "User not found or inactive" := by
              rw [hstep, hv]
              simp only [hf]
            rw [hout]
            right
            constructor
            · rintro ⟨h', userId', user, h, _, hv', hf', _⟩
              rw [← Option.some.inj h, hv] at hv'
              rw [← Except.ok.inj hv', hf] at hf'
              exact absurd hf' (by simp)
            · exact Or.inr (Or.inr (Or.inr (Or.inl rfl)))
          | some user =>
            by_cases ha : user.isActive = true
            · left
              refine ⟨⟨authHeader, userId, user, rfl, hb, hv, hf, ha⟩, userId, user, hf, ha, ?_⟩
              rw [hstep, hv]
              simp only [hf, ha, if_true]
            · have hout : authenticate env (some authHeader) s
                  = s.deny 401 "User not found or inactive" := by
                rw [hstep, hv]
                simp [hf, ha]
              rw [hout]
              right
              constructor
              · rintro ⟨h', userId', user', h, _, hv', hf', ha'⟩
                rw [← Option.some.inj h, hv] at hv'
                rw [← Except.ok.inj hv', hf] at hf'
                have hu : user = user' := Option.some.inj (Except.ok.inj hf')
                rw [← hu] at ha'
                exact ha ha'
              · exact Or.inr (Or.inr (Or.inr (Or.inl rfl)))
    · rw [Bool.not_eq_true] at hb
      right
      refine ⟨?_, Or.inl (authenticate_no_bearer env _ s (Or.inr ⟨authHeader, rfl, hb⟩))⟩
      rintro ⟨h', userId, user, h, hb', _⟩
      rw [← Option.some.inj h, hb] at hb'
      exact absurd hb' (by simp)

theorem authenticate_verify_error (env : Env) (authHeader : String) (s : State) (name : String)
    (hb : startsWith authHeader.data "Bearer ".data = true)
    (hv : env.verify (tokenOf authHeader) = Except.error name) :
    authenticate env (some authHeader) s = onError name s := by
  rw [authenticate_bearer env authHeader s hb, hv]

theorem authenticate_find_error (env : Env) (authHeader : String) (s : State)
    (userId name : String) (hb : startsWith authHeader.data "Bearer ".data = true)
    (hv : env.verify (tokenOf authHeader) = Except.ok userId)
    (hf : env.findUnique userId = Except.error name) :
    authenticate env (some authHeader) s = onError name s := by
  rw [authenticate_bearer env authHeader s hb, hv]
  simp only [hf]

theorem authenticate_no_user (env : Env) (authHeader : String) (s : State) (userId : String)
    (hb : startsWith authHeader.data "Bearer ".data = true)
    (hv : env.verify (tokenOf authHeader) = Except.ok userId)
    (hf : env.findUnique userId = Except.ok none
      ∨ ∃ user, env.findUnique userId = Except.ok (some user) ∧ user.isActive = false) :
    authenticate env (some authHeader) s = s.deny 401 "User not found or inactive" := by
  rw [authenticate_bearer env authHeader s hb, hv]
  rcases hf with hf | ⟨user, hf, ha⟩
  · simp only [hf]
  · simp [hf, ha]

/-! ## The identity attached to the request -/

/-- C23: whenever `authenticate` calls `next`, the identity it attached as `req.user` has as
roles the list of the names of the roles of the looked-up user, in the order the database
returned them (a list, possibly empty), and a lecturerId that is either null or the non-empty
id of the lecturer profile of that user, never undefined and never the empty string. -/
theorem attached_identity (env : Env) (authorization : Option String) (s : State)
    (h : CalledNext s.ctx (authenticate env authorization s).ctx) :
    ∃ (userId : String) (user : UserRow) (identity : Identity),
      env.findUnique userId = Except.ok (some user)
        ∧ (authenticate env authorization s).user = some identity
        ∧ identity.roles = user.roles.map (fun ur => ur.role.name)
        ∧ (identity.lecturerId = Authorize.JsVal.null
          ∨ ∃ lecturer, user.lecturer = some lecturer ∧ lecturer.id ≠ ""
              ∧ identity.lecturerId = Authorize.JsVal.str lecturer.id)
        ∧ identity.lecturerId ≠ Authorize.JsVal.undefined
        ∧ identity.lecturerId ≠ Authorize.JsVal.str "" := by
  rcases authenticate_outcome env authorization s with
    ⟨_, userId, user, hf, _, hout⟩ | ⟨_, hout⟩
  · have hl := lecturerIdOf_cases user
    rw [hout]
    exact ⟨userId, user, _, hf, rfl, rfl, hl.1, hl.2.1, hl.2.2⟩
  · exfalso
    rcases hout with hout | hout | hout | hout | hout <;> rw [hout] at h <;>
      exact deny_not_calledNext s _ _ h

theorem attached_identity_witness :
    CalledNext State.fresh.ctx (authenticate sampleEnv (some "Bearer good") State.fresh).ctx
      ∧ ∃ (userId : String) (user : UserRow) (identity : Identity),
        sampleEnv.findUnique userId = Except.ok (some user)
          ∧ (authenticate sampleEnv (some "Bearer good") State.fresh).user = some identity
          ∧ identity.roles = user.roles.map (fun ur => ur.role.name)
          ∧ (identity.lecturerId = Authorize.JsVal.null
            ∨ ∃ lecturer, user.lecturer = some lecturer ∧ lecturer.id ≠ ""
                ∧ identity.lecturerId = Authorize.JsVal.str lecturer.id)
          ∧ identity.lecturerId ≠ Authorize.JsVal.undefined
          ∧ identity.lecturerId ≠ Authorize.JsVal.str "" :=
  ⟨by decide, attached_identity sampleEnv (some "Bearer good") State.fresh (by decide)⟩

/-! ## Who is let through -/

/-- C26: `authenticate` calls `next` exactly when the Authorization header starts with Bearer
and a blank, the token verifies and the looked-up user exists and is active.  In every other
case it does not call `next`, leaves `req.user` as it was and writes one response: 401 Access
token is required for a missing or malformed header, 401 Token expired or 401 Invalid token
when the verification throws an error of that kind, 401 User not found or inactive for a
missing or inactive user, and 500 Authentication error when a call throws any other error. -/
theorem authenticate_gate (env : Env) (authorization : Option String) (s : State) :
    (CalledNext s.ctx (authenticate env authorization s).ctx ↔ Accepted env authorization)
      ∧ (¬ Accepted env authorization →
          (authenticate env authorization s).user = s.user
            ∧ ¬ CalledNext s.ctx (authenticate env authorization s).ctx
            ∧ (Responded s.ctx (authenticate env authorization s).ctx 401
                  "Access token is required"
              ∨ Responded s.ctx (authenticate env authorization s).ctx 401 "Token expired"
              ∨ Responded s.ctx (authenticate env authorization s).ctx 401 "Invalid token"
              ∨ Responded s.ctx (authenticate env authorization s).ctx 401
                  "User not found or inactive"
              ∨ Responded s.ctx (authenticate env authorization s).ctx 500
                  "Authentication error"))
      ∧ ((authorization = none
            ∨ ∃ authHeader, authorization = some authHeader
                ∧ startsWith authHeader.data "Bearer ".data = false) →
          Responded s.ctx (authenticate env authorization s).ctx 401 "Access token is required")
      ∧ (∀ authHeader, authorization = some authHeader →
          startsWith authHeader.data "Bearer ".data = true →
          (env.verify (tokenOf authHeader) = Except.error "TokenExpiredError" →
              Responded s.ctx (authenticate env authorization s).ctx 401 "Token expired")
            ∧ (env.verify (tokenOf authHeader) = Except.error "JsonWebTokenError" →
              Responded s.ctx (authenticate env authorization s).ctx 401 "Invalid token")
            ∧ (∀ name, name ≠ "TokenExpiredError" → name ≠ "JsonWebTokenError" →
              env.verify (tokenOf authHeader) = Except.error name →
              Responded s.ctx (authenticate env authorization s).ctx 500 "Authentication error")
            ∧ (∀ userId, env.verify (tokenOf authHeader) = Except.ok userId →
              ((env.findUnique userId = Except.ok none
                  ∨ ∃ user, env.findUnique userId = Except.ok (some user)
                      ∧ user.isActive = false) →
                Responded s.ctx (authenticate env authorization s).ctx 401
                  "User not found or inactive")
              ∧ (∀ name, name ≠ "TokenExpiredError" → name ≠ "JsonWebTokenError" →
                env.findUnique userId = Except.error name →
                Responded s.ctx (authenticate env authorization s).ctx 500
                  "Authentication error"))) := by
  refine ⟨?_, ?_, ?_, ?_⟩
  · rcases authenticate_outcome env authorization s with
      ⟨hacc, _, _, _, _, hout⟩ | ⟨hacc, hout⟩
    · rw [hout]
      exact ⟨fun _ => hacc, fun _ => Authorize.calledNext_next s.ctx⟩
    · constructor
      · intro h
        exfalso
        rcases hout with hout | hout | hout | hout | hout <;> rw [hout] at h <;>
          exact deny_not_calledNext s _ _ h
      · intro h
        exact absurd h hacc
  · intro hacc
    rcases authenticate_outcome env authorization s with ⟨h, _⟩ | ⟨_, hout⟩
    · exact absurd h hacc
    · rcases hout with hout | hout | hout | hout | hout <;> rw [hout]
      · exact ⟨rfl, deny_not_calledNext s _ _, Or.inl (deny_responded s _ _)⟩
      · exact ⟨rfl, deny_not_calledNext s _ _, Or.inr (Or.inl (deny_responded s _ _))⟩
      · exact ⟨rfl, deny_not_calledNext s _ _,
          Or.inr (Or.inr (Or.inl (deny_responded s _ _)))⟩
      · exact ⟨rfl, deny_not_calledNext s _ _,
          Or.inr (Or.inr (Or.inr (Or.inl (deny_responded s _ _))))⟩
      · exact ⟨rfl, deny_not_calledNext s _ _,
          Or.inr (Or.inr (Or.inr (Or.inr (deny_responded s _ _))))⟩
  · intro h
    rw [authenticate_no_bearer env authorization s h]
    exact deny_responded s _ _
  · intro authHeader hauth hb
    rw [hauth]
    refine ⟨?_, ?_, ?_, ?_⟩
    · intro hv
      rw [authenticate_verify_error env authHeader s _ hb hv, onError_expired]
      exact deny_responded s _ _
    · intro hv
      rw [authenticate_verify_error env authHeader s _ hb hv, onError_invalid]
      exact deny_responded s _ _
    · intro name h1 h2 hv
      rw [authenticate_verify_error env authHeader s _ hb hv, onError_other name s h1 h2]
      exact deny_responded s _ _
    · intro userId hv
      constructor
      · intro hf
        rw [authenticate_no_user env authHeader s userId hb hv hf]
        exact deny_responded s _ _
      · intro name h1 h2 hf
        rw [authenticate_find_error env authHeader s userId name hb hv hf,
          onError_other name s h1 h2]
        exact deny_responded s _ _

end Auth

namespace Response

/-- What an error response without errors argument shows: its status, its message and its
success flag. -/
theorem errorResponse_shown (res : Res) (message : String) (statusCode : Option Nat) :
    (errorResponse res (some message) statusCode Json.undefined).statusCode
        = some (statusCode.getD 500)
      ∧ (errorResponse res (some message) statusCode Json.undefined).message = some message
      ∧ (errorResponse res (some message) statusCode Json.undefined).success = some false
      ∧ (errorResponse res (some message) statusCode Json.undefined).body
          = some (Json.obj [("success", Json.bool false), ("message", Json.str message)]) := by
  have hk : ("message" == "success") = false := by decide
  refine ⟨rfl, ?_, ?_, rfl⟩
  · simp [Res.message, errorResponse, Res.json, Res.status, Json.get, Json.withDefault,
      Json.truthy, List.lookup, hk]
  · simp [Res.success, errorResponse, Res.json, Res.status, Json.get, Json.withDefault,
      Json.truthy, List.lookup]

end Response

namespace Notes

/-! ## Who may update a note -/

/-- C25 fails on the code: an administrator whose id differs from the id of the creator of the
note updates it; the answer is 200 with the message Note updated successfully and the stored
text changes.  The guard of the handler exempts the role ADMIN, while the comment above it
says that only the creator can update. -/
theorem admin_updates_foreign_note :
    sampleDb.rows.find? (fun note => note.id == "n1")
        = some ⟨"n1", "u1", Authorize.JsVal.str "first"⟩
      ∧ (userOf "u2" ["ADMIN"]).id ≠ "u1"
      ∧ (update renderNote sampleDb (userOf "u2" ["ADMIN"]) "n1" (bodyOf "edited")
          Response.createMockRes).2.statusCode = some 200
      ∧ (update renderNote sampleDb (userOf "u2" ["ADMIN"]) "n1" (bodyOf "edited")
          Response.createMockRes).2.message = some "Note updated successfully"
      ∧ (update renderNote sampleDb (userOf "u2" ["ADMIN"]) "n1" (bodyOf "edited")
          Response.createMockRes).1.rows = [⟨"n1", "u1", Authorize.JsVal.str "edited"⟩]
      ∧ (update renderNote sampleDb (userOf "u2" ["ADMIN"]) "n1" (bodyOf "edited")
          Response.createMockRes).1 ≠ sampleDb := by
  decide

/-- For every existing note and every requesting user whose id differs from the
createdByUserId of the note and whose roles do not contain ADMIN, the update handler answers
403 with the message You can only update your own notes and leaves the table unchanged. -/
theorem update_foreign_note_denied (render : Note → Response.Json) (db : Prisma.Table Note)
    (user : Auth.Identity) (id : String) (body : Authorize.JsObj) (res : Response.Res)
    (existing : Note) (hfind : db.findThrows = false)
    (hex : db.rows.find? (fun note => note.id == id) = some existing)
    (hdiff : existing.createdByUserId ≠ user.id) (hadmin : "ADMIN" ∉ user.roles) :
    (update render db user id body res).2.statusCode = some 403
      ∧ (update render db user id body res).2.body
          = some (Response.Json.obj
              [("success", Response.Json.bool false),
                ("message", Response.Json.str "You can only update your own notes")])
      ∧ (update render db user id body res).2.message
          = some "You can only update your own notes"
      ∧ (update render db user id body res).1 = db := by
  have ha : Authorize.JsArray.includes user.roles "ADMIN" = false := by
    rw [← Bool.not_eq_true, Authorize.includes_iff]
    exact hadmin
  have hout : update render db user id body res =
      (db, Response.errorResponse res (some "You can only update your own notes") (some 403)
        Response.Json.undefined) := by
    unfold update
    simp [hfind, hex, hdiff, ha]
  rw [hout]
  exact ⟨rfl, rfl, (Response.errorResponse_shown res _ (some 403)).2.1, rfl⟩

theorem update_foreign_note_denied_witness :
    sampleDb.findThrows = false
      ∧ sampleDb.rows.find? (fun note => note.id == "n1")
          = some ⟨"n1", "u1", Authorize.JsVal.str "first"⟩
      ∧ "u1" ≠ (userOf "u2" ["KAPRODI"]).id
      ∧ "ADMIN" ∉ (userOf "u2" ["KAPRODI"]).roles
      ∧ (update renderNote sampleDb (userOf "u2" ["KAPRODI"]) "n1" (bodyOf "edited")
          Response.createMockRes).2.statusCode = some 403
      ∧ (update renderNote sampleDb (userOf "u2" ["KAPRODI"]) "n1" (bodyOf "edited")
          Response.createMockRes).2.body
          = some (Response.Json.obj
              [("success", Response.Json.bool false),
                ("message", Response.Json.str "You can only update your own notes")])
      ∧ (update renderNote sampleDb (userOf "u2" ["KAPRODI"]) "n1" (bodyOf "edited")
          Response.createMockRes).2.message = some "You can only update your own notes"
      ∧ (update renderNote sampleDb (userOf "u2" ["KAPRODI"]) "n1" (bodyOf "edited")
          Response.createMockRes).1 = sampleDb :=
  ⟨rfl, by decide, by decide, by decide,
    update_foreign_note_denied renderNote sampleDb (userOf "u2" ["KAPRODI"]) "n1"
      (bodyOf "edited") Response.createMockRes ⟨"n1", "u1", Authorize.JsVal.str "first"⟩ rfl
      (by decide) (by decide) (by decide)⟩

end Notes

namespace Reviews

/-! ## Completed reviews -/

/-- After an update of the rows with the given id that keeps their id, the lookup returns the
updated row. -/
theorem find_map (rows : List Review) (id : String) (f : Review → Review)
    (hf : ∀ review, (f review).id = review.id) (existing : Review)
    (hex : rows.find? (fun review => review.id == id) = some existing) :
    (rows.map (fun review => if review.id == id then f review else review)).find?
      (fun review => review.id == id) = some (f existing) := by
  induction rows with
  | nil => exact absurd hex (by simp)
  | cons row rest ih =>
    rw [List.find?_cons] at hex
    rw [List.map_cons, List.find?_cons]
    cases hrow : (row.id == id) with
    | true =>
      rw [hrow] at hex
      have he : row = existing := Option.some.inj hex
      have hfrow : ((f row).id == id) = true := by rw [hf row]; exact hrow
      rw [he] at hfrow
      simp only [if_true, he, hfrow]
    | false =>
      rw [hrow] at hex
      simp only [Bool.false_eq_true, if_false, hrow]
      exact ih hex

/-- C30, as stated, fails: on a completed review, `complete` without a decision answers 400
Decision is required, not Review already completed. -/
theorem complete_checks_decision_first :
    sampleDb.rows.find? (fun review => review.id == "r1")
        = some ⟨"r1", "COMPLETED", Authorize.JsVal.str "APPROVED", Authorize.JsVal.str "fine",
            some 5⟩
      ∧ (complete renderId 9 sampleDb "r1" Authorize.emptyObj
          Response.createMockRes).2.statusCode = some 400
      ∧ (complete renderId 9 sampleDb "r1" Authorize.emptyObj
          Response.createMockRes).2.message = some "Decision is required"
      ∧ (complete renderId 9 sampleDb "r1" Authorize.emptyObj
          Response.createMockRes).2.message ≠ some "Review already completed" := by
  decide

/-- C30, amended: COMPLETED is a terminal status for the update and complete handlers.  For
every stored review whose status is COMPLETED, update answers 400 Cannot update completed
review, complete answers 400 Review already completed when the body carries a truthy decision
and 400 Decision is required when it does not, and in all these cases the table is left
unchanged.  Complete on a stored review that is not COMPLETED, with a truthy decision and an
update the database accepts, stores the status COMPLETED, the decision and the time. -/
theorem completed_is_terminal (render : Review → Response.Json) (now : Nat)
    (db : Prisma.Table Review) (id : String) (body : Authorize.JsObj) (res : Response.Res)
    (existing : Review) (hfind : db.findThrows = false)
    (hex : db.rows.find? (fun review => review.id == id) = some existing) :
    (existing.status = "COMPLETED" →
        (update render db id body res).2.statusCode = some 400
          ∧ (update render db id body res).2.message = some "Cannot update completed review"
          ∧ (update render db id body res).1 = db)
      ∧ (existing.status = "COMPLETED" → (body.get "decision").truthy = true →
        (complete render now db id body res).2.statusCode = some 400
          ∧ (complete render now db id body res).2.message = some "Review already completed"
          ∧ (complete render now db id body res).1 = db)
      ∧ ((body.get "decision").truthy = false →
        (complete render now db id body res).2.statusCode = some 400
          ∧ (complete render now db id body res).2.message = some "Decision is required"
          ∧ (complete render now db id body res).1 = db)
      ∧ (existing.status ≠ "COMPLETED" → (body.get "decision").truthy = true →
        db.updateThrows = false →
        ∃ stored : Review,
          (complete render now db id body res).1.rows.find? (fun review => review.id == id)
              = some stored
            ∧ stored.status = "COMPLETED"
            ∧ stored.decision = body.get "decision"
            ∧ stored.completedAt = some now
            ∧ (complete render now db id body res).2.statusCode = some 200) := by
  refine ⟨?_, ?_, ?_, ?_⟩
  · intro hst
    have hout : update render db id body res =
        (db, Response.errorResponse res (some "Cannot update completed review") (some 400)
          Response.Json.undefined) := by
      unfold update
      simp [hfind, hex, hst]
    rw [hout]
    exact ⟨rfl, (Response.errorResponse_shown res _ (some 400)).2.1, rfl⟩
  · intro hst hd
    have hout : complete render now db id body res =
        (db, Response.errorResponse res (some "Review already completed") (some 400)
          Response.Json.undefined) := by
      unfold complete
      simp [hfind, hex, hst, hd]
    rw [hout]
    exact ⟨rfl, (Response.errorResponse_shown res _ (some 400)).2.1, rfl⟩
  · intro hd
    have hout : complete render now db id body res =
        (db, Response.errorResponse res (some "Decision is required") (some 400)
          Response.Json.undefined) := by
      unfold complete
      simp [hd]
    rw [hout]
    exact ⟨rfl, (Response.errorResponse_shown res _ (some 400)).2.1, rfl⟩
  · intro hst hd hup
    have hout : complete render now db id body res =
        ({ db with rows := db.rows.map (fun review =>
              if review.id == id then
                applyComplete (body.get "decision") (body.get "summary") now review
              else review) },
          Response.successResponse res
            (render (applyComplete (body.get "decision") (body.get "summary") now existing))
            (some "Review completed successfully") none) := by
      unfold complete
      simp [hfind, hex, hst, hd, hup]
    rw [hout]
    have hundef : body.get "decision" ≠ Authorize.JsVal.undefined := by
      intro h
      rw [h] at hd
      exact absurd hd (by decide)
    refine ⟨applyComplete (body.get "decision") (body.get "summary") now existing,
      find_map db.rows id (applyComplete (body.get "decision") (body.get "summary") now)
        (fun _ => rfl) existing hex, rfl, ?_, rfl, rfl⟩
    simp [applyComplete, setField, hundef]

theorem completed_is_terminal_witness :
    sampleDb.findThrows = false
      ∧ sampleDb.rows.find? (fun review => review.id == "r1")
          = some ⟨"r1", "COMPLETED", Authorize.JsVal.str "APPROVED", Authorize.JsVal.str "fine",
              some 5⟩
      ∧ (update renderId sampleDb "r1" (bodyOf "REJECTED") Response.createMockRes).2.message
          = some "Cannot update completed review"
      ∧ (update renderId sampleDb "r1" (bodyOf "REJECTED") Response.createMockRes).1 = sampleDb
      ∧ (complete renderId 9 sampleDb "r1" (bodyOf "REJECTED") Response.createMockRes).2.message
          = some "Review already completed"
      ∧ (complete renderId 9 sampleDb "r1" (bodyOf "REJECTED") Response.createMockRes).1
          = sampleDb :=
  ⟨rfl, by decide,
    ((completed_is_terminal renderId 9 sampleDb "r1" (bodyOf "REJECTED") Response.createMockRes
      ⟨"r1", "COMPLETED", Authorize.JsVal.str "APPROVED", Authorize.JsVal.str "fine", some 5⟩
      rfl (by decide)).1 rfl).2.1,
    ((completed_is_terminal renderId 9 sampleDb "r1" (bodyOf "REJECTED") Response.createMockRes
      ⟨"r1", "COMPLETED", Authorize.JsVal.str "APPROVED", Authorize.JsVal.str "fine", some 5⟩
      rfl (by decide)).1 rfl).2.2,
    ((completed_is_terminal renderId 9 sampleDb "r1" (bodyOf "REJECTED") Response.createMockRes
      ⟨"r1", "COMPLETED", Authorize.JsVal.str "APPROVED", Authorize.JsVal.str "fine", some 5⟩
      rfl (by decide)).2.1 rfl (by decide)).2.1,
    ((completed_is_terminal renderId 9 sampleDb "r1" (bodyOf "REJECTED") Response.createMockRes
      ⟨"r1", "COMPLETED", Authorize.JsVal.str "APPROVED", Authorize.JsVal.str "fine", some 5⟩
      rfl (by decide)).2.1 rfl (by decide)).2.2⟩

end Reviews
